import Mathlib

/-!
# paracurl: segmented concurrent download engine

A shallow embedding of `src/paracurl/paracurl.c` and the properties of its
segment planner, worker and coordinator.

Conventions of the embedding (LP64 data model, which the source's
`_FILE_OFFSET_BITS >= 64` check is compatible with):

* `size_t` is an unsigned 64-bit integer: a `Nat`, reduced `% 2 ^ 64` wherever
  the C code converts to it or computes in it;
* `off_t`, `ssize_t`, `long long` are signed 64-bit integers and `int` is a
  signed 32-bit integer: an `Int`;
* everything the C code obtains from the outside (libc, libcurl, pthreads, the
  file system) is an explicit argument of the embedded function.
-/

namespace Paracurl

/-! ## Error codes (`#define PC_ERR_x`) -/

def PC_ERR_ALLOC : Int := -1
def PC_ERR_ASSERT : Int := -2
def PC_ERR_CONTENT_LEN : Int := -3
def PC_ERR_MAX_THREADS : Int := -4
def PC_ERR_HTTP : Int := -5
def PC_ERR_OPEN : Int := -6
def PC_ERR_LSEEK : Int := -7
def PC_ERR_CLOSE : Int := -8
def PC_ERR_BYTES_WRITTEN : Int := -9
def PC_ERR_PTHREAD_CREATE : Int := -10
def PC_ERR_PTHREAD_JOIN : Int := -11
def PC_ERR_RENAME : Int := -12
def PC_ERR_ETAG_MATCH : Int := -13

/-! ## Machine integers -/

/-- Number of values of a `size_t` (64-bit unsigned). -/
def SIZE_MOD : Nat := 2 ^ 64

/-- Conversion of a signed integer to `size_t` (C: value modulo `2 ^ 64`). -/
def to_size_t (v : Int) : Nat := (v % (SIZE_MOD : Int)).toNat

/-- Conversion of an unsigned 64-bit value to `off_t` (two's complement). -/
def to_off_t (n : Nat) : Int :=
  if n % SIZE_MOD < 2 ^ 63 then ((n % SIZE_MOD : Nat) : Int)
  else ((n % SIZE_MOD : Nat) : Int) - (SIZE_MOD : Int)

/-! ## Data model (`struct paracurl_thread`, `struct paracurl_state`) -/

/-- The record `struct paracurl_thread` (the `pthread_t`, the back reference to
the parent state and the cache-line padding carry no data of the model). -/
structure paracurl_thread where
  index : Nat
  range_start : Int
  range_len : Int
  bytes_written : Int
  fd : Int
  status : Int
  deriving DecidableEq, Repr

/-- The record `struct paracurl_state`. A `char *` that may be `NULL` is an
`Option String`. -/
structure paracurl_state where
  outpath : String
  outpath_tmp : Option String
  url : String
  url_etag : Option String
  etag : Option String
  max_threads : Nat
  n_retries : Nat
  retry_pause : Nat
  timeout : Int
  connect_timeout : Int
  debug : Int
  content_length : Int
  n_threads : Nat
  threads : List paracurl_thread
  deriving DecidableEq, Repr

/-- One element of the array returned by `calloc`: every field is zero. -/
def calloc_thread : paracurl_thread :=
  { index := 0, range_start := 0, range_len := 0, bytes_written := 0, fd := 0, status := 0 }

/-! ## Segment planner (`init_thread_info`) -/

/-- The constant `minseg` of `init_thread_info`. -/
def minseg : Int := 1000000

/-- The `for (i = 0; i < n_threads; ++i)` loop of `init_thread_info`. The first
argument is the number of iterations left (`n_threads - i`); the result is the
early return code (0 when the loop ran to its end), the running offset `x` and
the thread array. -/
def init_thread_info_loop (content_length seg : Int) (n_threads : Nat) :
    Nat → Nat → Int → List paracurl_thread → Int × Int × List paracurl_thread
  | 0, _, x, threads => (0, x, threads)
  | left + 1, i, x, threads =>
    let len : Int := if i = (n_threads + SIZE_MOD - 1) % SIZE_MOD then content_length - x else seg
    if len = 0 then (PC_ERR_ASSERT, x, threads)
    else
      let thr := threads.getD i calloc_thread
      let thr := { thr with index := i, range_start := x, range_len := len, fd := -1 }
      init_thread_info_loop content_length seg n_threads left (i + 1) (x + len) (threads.set i thr)

/-- The function `init_thread_info`. `calloc_ok` tells whether the allocation of
the thread array succeeds. Returns the return code and the updated state. -/
def init_thread_info (state : paracurl_state) (calloc_ok : Bool) : Int × paracurl_state :=
  if state.max_threads ≤ 0 then (PC_ERR_MAX_THREADS, state)
  else
    let seg0 : Int := to_off_t (to_size_t state.content_length / state.max_threads)
    let seg : Int := if seg0 ≥ minseg then seg0 else minseg
    let n_threads : Nat :=
      if seg0 ≥ minseg then state.max_threads
      else to_size_t (Int.tdiv state.content_length minseg + 1)
    if !calloc_ok then (PC_ERR_ALLOC, { state with threads := [] })
    else
      match init_thread_info_loop state.content_length seg n_threads n_threads 0 0
          (List.replicate n_threads calloc_thread) with
      | (rc, x, threads) =>
        let state := { state with threads := threads }
        if rc ≠ 0 then (rc, state)
        else if x ≠ state.content_length then (PC_ERR_ASSERT, state)
        else (0, { state with n_threads := n_threads })

/-- A state as `paracurl_download` holds it when it calls `init_thread_info`:
zeroed by `calloc`, then the probed content length and the max_threads field. -/
def planning_state (content_length : Int) (max_threads : Nat) : paracurl_state :=
  { outpath := "", outpath_tmp := none, url := "", url_etag := none, etag := none,
    max_threads := max_threads, n_retries := 0, retry_pause := 0, timeout := 0,
    connect_timeout := 0, debug := 0, content_length := content_length,
    n_threads := 0, threads := [] }

/-! ## Write callback (`write_data_segment`) -/

/-- One call of the write callback by libcurl: its `size` and `nmemb` arguments
and, as a function of the byte count requested, the value `write(2)` returns
for it (`-1` on failure, else the number of bytes written). -/
structure chunk where
  size : Nat
  nmemb : Nat
  write : Nat → Int

/-- Outcome of one call of `write_data_segment`: the value returned to libcurl,
the byte count that was handed to `write(2)` and the updated thread record. -/
structure write_result where
  ret : Nat
  requested : Nat
  thr : paracurl_thread

/-- The function `write_data_segment`. `thr->bytes_written + size` mixes `off_t`
and `size_t` and is computed, like the comparison, in `size_t`. -/
def write_data_segment (thr : paracurl_thread) (c : chunk) : write_result :=
  let size : Nat := (c.size * c.nmemb) % SIZE_MOD
  let size : Nat :=
    if (to_size_t thr.bytes_written + size) % SIZE_MOD > to_size_t thr.range_len then
      to_size_t (thr.range_len - thr.bytes_written)
    else size
  let actsize : Int := c.write size
  if actsize = -1 then { ret := 0, requested := size, thr := thr }
  else
    { ret := to_size_t actsize, requested := size,
      thr := { thr with bytes_written := thr.bytes_written + actsize } }

/-- The write callbacks libcurl makes during one `curl_easy_perform`, in order:
the thread record after them. -/
def run_callbacks (thr : paracurl_thread) (cs : List chunk) : paracurl_thread :=
  cs.foldl (fun t c => (write_data_segment t c).thr) thr

/-- The calls of `write_data_segment` during one `curl_easy_perform`: for each
call the thread record before it, the chunk and the outcome. -/
def callback_trace :
    paracurl_thread → List chunk → List (paracurl_thread × chunk × write_result)
  | _, [] => []
  | thr, c :: cs =>
    (thr, c, write_data_segment thr c) :: callback_trace (write_data_segment thr c).thr cs

/-! ## Segment worker (`thread_func`) -/

/-- What one pass of the retry loop of `thread_func` obtains from libcurl and the
kernel: whether `curl_easy_init` gives a handle, the value `lseek` returns for a
requested offset, the write callbacks made by `curl_easy_perform`, the value it
returns and the HTTP response code. -/
structure attempt where
  curl_handle_ok : Bool
  lseek : Int → Int
  chunks : List chunk
  perform_status : Int
  http_code : Int

/-- The environment of one worker: the descriptor `open` returns (`-1` on
failure), the attempts by loop index and the value `close` returns. -/
structure worker_env where
  open_fd : Int
  attempts : Nat → attempt
  close_rc : Int

/-- Outcome of `thread_func`: the thread record it leaves, the local variable
`status` at exit, the number of `curl_easy_perform` calls and the arguments of
the `sleep` calls in order. -/
structure thread_result where
  thr : paracurl_thread
  status : Int
  performs : Nat
  sleeps : List Nat

/-- The retry loop of `thread_func`. `CURLE_WRITE_ERROR` is the libcurl constant
of that name (declared in `curl/curl.h`, outside the sources); the first
numeric argument is the number of iterations left (`n_retries - i`). -/
def thread_func_loop (CURLE_WRITE_ERROR : Int) (state : paracurl_state) (env : worker_env) :
    Nat → Nat → Int → paracurl_thread → Nat → List Nat → thread_result
  | 0, _, status, thr, performs, sleeps =>
    { thr := thr, status := status, performs := performs, sleeps := sleeps }
  | left + 1, i, _, thr, performs, sleeps =>
    let sleeps := if i ≠ 0 ∧ state.retry_pause ≠ 0 then sleeps ++ [state.retry_pause] else sleeps
    let a := env.attempts i
    if !a.curl_handle_ok then
      { thr := thr, status := PC_ERR_ALLOC, performs := performs, sleeps := sleeps }
    else
      let thr := { thr with bytes_written := 0 }
      if a.lseek thr.range_start ≠ thr.range_start then
        { thr := thr, status := PC_ERR_LSEEK, performs := performs, sleeps := sleeps }
      else
        let thr := run_callbacks thr a.chunks
        let status := a.perform_status
        if status ≠ 0 then
          if status = CURLE_WRITE_ERROR then
            { thr := thr, status := status, performs := performs + 1, sleeps := sleeps }
          else
            thread_func_loop CURLE_WRITE_ERROR state env left (i + 1) status thr
              (performs + 1) sleeps
        else if a.http_code ≠ 206 then
          thread_func_loop CURLE_WRITE_ERROR state env left (i + 1) PC_ERR_HTTP thr
            (performs + 1) sleeps
        else if thr.bytes_written ≠ thr.range_len then
          thread_func_loop CURLE_WRITE_ERROR state env left (i + 1) PC_ERR_BYTES_WRITTEN thr
            (performs + 1) sleeps
        else
          { thr := thr, status := status, performs := performs + 1, sleeps := sleeps }

/-- The label `done:` of `thread_func`: close the descriptor, then store a
non-zero local status. -/
def thread_func_done (env : worker_env) (r : thread_result) : thread_result :=
  let thr := r.thr
  let thr := if thr.fd ≠ -1 then
      (if env.close_rc ≠ 0 then { thr with status := PC_ERR_CLOSE } else thr)
    else thr
  let thr := if r.status ≠ 0 then { thr with status := r.status } else thr
  { r with thr := thr }

/-- The function `thread_func`. -/
def thread_func (CURLE_WRITE_ERROR : Int) (state : paracurl_state) (thr : paracurl_thread)
    (env : worker_env) : thread_result :=
  let thr := { thr with fd := env.open_fd }
  if thr.fd = -1 then
    thread_func_done env { thr := thr, status := PC_ERR_OPEN, performs := 0, sleeps := [] }
  else
    thread_func_done env
      (thread_func_loop CURLE_WRITE_ERROR state env state.n_retries 0 0 thr 0 [])

/-! ## Header callback (`header_callback`) -/

/-- A buffer read as a C string: the characters before the first NUL. -/
def c_str (data : List Char) : List Char :=
  data.takeWhile fun ch => ch ≠ Char.ofNat 0

/-- The test `strncasecmp(s, p, n) == 0` for NUL-free `p` of length at least `n`. -/
def strncasecmp_eq (s p : List Char) (n : Nat) : Bool :=
  (s.take n).map Char.toLower == (p.take n).map Char.toLower

/-- The libc predicate `isspace` (C locale). -/
def isspace (ch : Char) : Bool :=
  ch = ' ' || (9 ≤ ch.toNat && ch.toNat ≤ 13)

/-- The libc function `atoll`: optional white space, optional sign, decimal
digits; out-of-range values saturate as in `strtoll`. -/
def atoll (s : List Char) : Int :=
  let s := s.dropWhile isspace
  let neg : Bool := s.head? = some '-'
  let s := if s.head? = some '-' ∨ s.head? = some '+' then s.drop 1 else s
  let v : Nat := (s.takeWhile Char.isDigit).foldl (fun acc d => acc * 10 + (d.toNat - 48)) 0
  let r : Int := if neg then -(v : Int) else (v : Int)
  if r > 2 ^ 63 - 1 then 2 ^ 63 - 1 else if r < -(2 ^ 63) then -(2 ^ 63) else r

/-- The constant `cr_prefix` of `header_callback`. -/
def cr_prefix : String := "Content-Range: bytes 0-0/"

/-- The constant `etag_prefix` of `header_callback` (`ETag: ` and a double quote). -/
def etag_prefix : List Char := "ETag: ".toList ++ [Char.ofNat 34]

/-- One call of the header callback by libcurl: the header data and whether the
two `malloc` calls of the callback succeed. -/
structure header_event where
  data : String
  header_malloc_ok : Bool
  dest_malloc_ok : Bool

/-- The function `header_callback`: the state after the call (the return value,
`size` or 0, only tells libcurl whether to go on). -/
def header_callback (state : paracurl_state) (ev : header_event) : paracurl_state :=
  if !ev.header_malloc_ok then state
  else
    let header := c_str ev.data.toList
    let state :=
      if strncasecmp_eq header cr_prefix.toList cr_prefix.length then
        { state with content_length := atoll (header.drop cr_prefix.length) }
      else state
    if strncasecmp_eq header etag_prefix etag_prefix.length then
      let etag := header.drop etag_prefix.length
      if ev.dest_malloc_ok ∧ Char.ofNat 34 ∈ etag then
        { state with url_etag := some (String.mk (etag.takeWhile fun ch => ch ≠ Char.ofNat 34)) }
      else state
    else state

/-! ## Coordinator (`paracurl_download`) -/

/-- The arguments of `paracurl.download` as `PyArg_ParseTupleAndKeywords` stores
them (`char *` and C `int` values). -/
structure download_args where
  outpath : String
  url : String
  etag : Option String
  max_threads : Int
  n_retries : Int
  retry_pause : Int
  timeout : Int
  connect_timeout : Int
  debug : Int

/-- What one pass of the probe loop obtains from libcurl: whether
`curl_easy_init` gives a handle, the header callbacks made by
`curl_easy_perform`, the value it returns and the HTTP response code. -/
structure probe_attempt where
  curl_handle_ok : Bool
  headers : List header_event
  perform_status : Int
  http_code : Int

/-- Everything `paracurl_download` obtains from outside: allocation results, the
probe attempts by loop index, the results of `open`, `lseek` and `close` on the
temporary file, of `pthread_create` and `pthread_join` by thread index, the
workers' environments and the result of `rename`. -/
structure download_env where
  state_alloc_ok : Bool
  strings_alloc_ok : Bool
  probes : Nat → probe_attempt
  open_fd : Int
  lseek : Int → Int
  close_rc : Int
  threads_alloc_ok : Bool
  create_rc : Nat → Int
  workers : Nat → worker_env
  join_rc : Nat → Int
  rename_rc : Int

/-- The calls `paracurl_download` itself makes on the two path names: `open` of
the temporary path with `O_CREAT | O_TRUNC` (with the descriptor returned),
`rename` of the temporary path to the output path (with its return value; the
only call that touches the output path) and `unlink` of the temporary path. -/
inductive fs_call where
  | open_tmp (fd : Int)
  | rename (rc : Int)
  | unlink
  deriving DecidableEq, Repr

/-- Outcome of `paracurl_download`: the final `status` (raised as
`paracurl.Exception` when non-zero), the value built by `Py_BuildValue` when it
is zero, and the calls made on the path names, in order. -/
structure download_result where
  status : Int
  ret : Option (Int × Option String)
  calls : List fs_call
  deriving DecidableEq, Repr

/-- The state after `calloc`, the string copies and "initialize numerical
values": `int` arguments are converted to the unsigned field types. -/
def paracurl_download_init (args : download_args) : paracurl_state :=
  { outpath := args.outpath, outpath_tmp := none, url := args.url, url_etag := none,
    etag := args.etag,
    max_threads := to_size_t args.max_threads,
    n_retries := to_size_t args.n_retries,
    retry_pause := (args.retry_pause % 2 ^ 32).toNat,
    timeout := args.timeout, connect_timeout := args.connect_timeout, debug := args.debug,
    content_length := 0, n_threads := 0, threads := [] }

/-- The probe loop of `paracurl_download` ("test that URL is gettable and fetch
Content-Length"). The first numeric argument is the number of iterations left
(`n_retries - i`); the result is the local `status`, the state and the arguments
of the `sleep` calls. -/
def paracurl_download_probe (probes : Nat → probe_attempt) :
    Nat → Nat → Int → paracurl_state → List Nat → Int × paracurl_state × List Nat
  | 0, _, status, state, sleeps => (status, state, sleeps)
  | left + 1, i, _, state, sleeps =>
    let sleeps := if i ≠ 0 ∧ state.retry_pause ≠ 0 then sleeps ++ [state.retry_pause] else sleeps
    let a := probes i
    if !a.curl_handle_ok then (PC_ERR_ALLOC, state, sleeps)
    else
      let state := a.headers.foldl header_callback state
      let status := a.perform_status
      if status ≠ 0 then paracurl_download_probe probes left (i + 1) status state sleeps
      else if a.http_code ≠ 206 then
        paracurl_download_probe probes left (i + 1) PC_ERR_HTTP state sleeps
      else if state.content_length ≠ 0 then (status, state, sleeps)
      else paracurl_download_probe probes left (i + 1) PC_ERR_CONTENT_LEN state sleeps

/-- The loop "fire up threads" together with the threads it starts: a thread
that is created runs `thread_func` on its own record (the only record it
writes), a thread that is not gets `PC_ERR_PTHREAD_CREATE`. -/
def fire_up_threads (CURLE_WRITE_ERROR : Int) (state : paracurl_state)
    (create_rc : Nat → Int) (workers : Nat → worker_env) :
    Nat → Nat → List paracurl_thread → List paracurl_thread
  | 0, _, threads => threads
  | left + 1, i, threads =>
    let thr := threads.getD i calloc_thread
    let thr :=
      if create_rc i ≠ 0 then { thr with status := PC_ERR_PTHREAD_CREATE }
      else (thread_func CURLE_WRITE_ERROR state thr (workers i)).thr
    fire_up_threads CURLE_WRITE_ERROR state create_rc workers left (i + 1) (threads.set i thr)

/-- The loop "wait for threads to finish": the local `status` after it. The
first numeric argument is the number of iterations left (`n_threads - i`). -/
def wait_for_threads (state : paracurl_state) (join_rc : Nat → Int) : Nat → Nat → Int → Int
  | 0, _, status => status
  | left + 1, i, status =>
    let thr := state.threads.getD i calloc_thread
    let status :=
      if thr.status ≠ PC_ERR_PTHREAD_CREATE ∧ join_rc i ≠ 0 then PC_ERR_PTHREAD_JOIN
      else if thr.status ≠ 0 then thr.status
      else status
    wait_for_threads state join_rc left (i + 1) status

/-- The label `done:` of `paracurl_download`; `state` is `none` when its
allocation failed. -/
def paracurl_download_done (state : Option paracurl_state) (status : Int)
    (calls : List fs_call) : download_result :=
  match state with
  | none => { status := status, ret := none, calls := calls }
  | some st =>
    { status := status,
      ret := if status = 0 then some (st.content_length, st.url_etag) else none,
      calls := if st.outpath_tmp ≠ none ∧ status ≠ 0 then calls ++ [fs_call.unlink] else calls }

/-- Fan-in and commit of `paracurl_download`, from "wait for threads to finish"
to the return: `state` holds the thread records as the workers left them; the
calls listed are those of this part. -/
def paracurl_download_commit (state : paracurl_state) (join_rc : Nat → Int) (rename_rc : Int) :
    download_result :=
  let status := wait_for_threads state join_rc state.n_threads 0 0
  if status = 0 then
    if rename_rc ≠ 0 then
      paracurl_download_done (some state) PC_ERR_RENAME [fs_call.rename rename_rc]
    else paracurl_download_done (some state) status [fs_call.rename rename_rc]
  else paracurl_download_done (some state) status []

/-- The function `paracurl_download`, after argument parsing. -/
def paracurl_download (CURLE_WRITE_ERROR : Int) (args : download_args) (env : download_env) :
    download_result :=
  if !env.state_alloc_ok then paracurl_download_done none PC_ERR_ALLOC []
  else if !env.strings_alloc_ok then
    paracurl_download_done (some { paracurl_download_init args with
      max_threads := 0, n_retries := 0, retry_pause := 0, timeout := 0, connect_timeout := 0,
      debug := 0 }) PC_ERR_ALLOC []
  else
    let state := paracurl_download_init args
    match paracurl_download_probe env.probes state.n_retries 0 0 state [] with
    | (status, state, _) =>
      if status ≠ 0 then paracurl_download_done (some state) status []
      else if state.etag ≠ none ∧ state.url_etag ≠ none ∧ state.etag = state.url_etag then
        paracurl_download_done (some state) PC_ERR_ETAG_MATCH []
      else
        let state := { state with outpath_tmp := some (state.outpath ++ ".tmp") }
        let calls := [fs_call.open_tmp env.open_fd]
        if env.open_fd = -1 then paracurl_download_done (some state) PC_ERR_OPEN calls
        else if env.lseek state.content_length ≠ state.content_length then
          paracurl_download_done (some state) PC_ERR_LSEEK calls
        else if env.close_rc ≠ 0 then paracurl_download_done (some state) PC_ERR_CLOSE calls
        else
          match init_thread_info state env.threads_alloc_ok with
          | (status, state) =>
            if status ≠ 0 then paracurl_download_done (some state) status calls
            else
              let state := { state with
                threads := fire_up_threads CURLE_WRITE_ERROR state env.create_rc env.workers
                  state.n_threads 0 state.threads }
              let r := paracurl_download_commit state env.join_rc env.rename_rc
              { r with calls := calls ++ r.calls }

/-! ## Vocabulary of the worker properties -/

/-- The value of `bytes_written` after the write callbacks of attempt `a`, which
start from `bytes_written = 0`. -/
def attempt_bytes (thr : paracurl_thread) (a : attempt) : Int :=
  (run_callbacks { thr with bytes_written := 0 } a.chunks).bytes_written

/-- Attempt `a` of the worker of segment `thr` reaches the transfer and fails in
a way the loop retries: a transport error other than `CURLE_WRITE_ERROR`, a
status other than 206, or a byte count other than `range_len`. -/
def retryable_failure (CURLE_WRITE_ERROR : Int) (thr : paracurl_thread) (a : attempt) : Prop :=
  a.curl_handle_ok = true ∧ a.lseek thr.range_start = thr.range_start ∧
    ((a.perform_status ≠ 0 ∧ a.perform_status ≠ CURLE_WRITE_ERROR) ∨
     (a.perform_status = 0 ∧ a.http_code ≠ 206) ∨
     (a.perform_status = 0 ∧ a.http_code = 206 ∧ attempt_bytes thr a ≠ thr.range_len))

/-- Attempt `a` of the worker of segment `thr` reaches the transfer, which
returns 206 with `bytes_written` equal to `range_len`. -/
def successful_attempt (thr : paracurl_thread) (a : attempt) : Prop :=
  a.curl_handle_ok = true ∧ a.lseek thr.range_start = thr.range_start ∧
    a.perform_status = 0 ∧ a.http_code = 206 ∧ attempt_bytes thr a = thr.range_len

/-- The behaviours of `write(2)` the worker properties range over: failure
(`-1`) or a count between 0 and the count requested. -/
def write_behaves (c : chunk) : Prop :=
  ∀ n : Nat, c.write n = -1 ∨ (0 ≤ c.write n ∧ c.write n ≤ (n : Int))

/-- Two thread records describe the same segment of the same open file: they
differ at most in `bytes_written`. -/
def same_segment (a b : paracurl_thread) : Prop :=
  a.index = b.index ∧ a.range_start = b.range_start ∧ a.range_len = b.range_len ∧
    a.fd = b.fd ∧ a.status = b.status

/-! ## Concrete inputs -/

/-- A planned segment of 100 bytes at offset 0. -/
def thr_100 : paracurl_thread :=
  { index := 0, range_start := 0, range_len := 100, bytes_written := 0, fd := -1, status := 0 }

/-- Two chunks, of 10 and of 200 bytes, each written in full. -/
def chunks_10_200 : List chunk :=
  [{ size := 10, nmemb := 1, write := fun n => (n : Int) },
   { size := 1, nmemb := 200, write := fun n => (n : Int) }]

/-- A chunk of 10 bytes written in full, then a chunk whose `size * nmemb` is
`2 ^ 64 - 5`, of which `write` takes at most 4096 bytes at a time. -/
def chunks_wrap : List chunk :=
  [{ size := 10, nmemb := 1, write := fun n => (n : Int) },
   { size := 2 ^ 64 - 5, nmemb := 1, write := fun n => ((min n 4096 : Nat) : Int) }]

/-- An attempt in which the server answers `http_code` and delivers `len` bytes
in one chunk that is written in full. -/
def attempt_of (http_code : Int) (len : Nat) : attempt :=
  { curl_handle_ok := true, lseek := fun off => off,
    chunks := [{ size := 1, nmemb := len, write := fun n => (n : Int) }],
    perform_status := 0, http_code := http_code }

/-- A worker environment whose first `fails` attempts get a 503 answer without
body and whose later attempts get 206 with `len` bytes. -/
def worker_env_of (fails len : Nat) (close_rc : Int) : worker_env :=
  { open_fd := 3,
    attempts := fun i => if i < fails then attempt_of 503 0 else attempt_of 206 len,
    close_rc := close_rc }

/-- The state of a download with the default `n_retries = 5` and
`retry_pause = 5`. -/
def state_default : paracurl_state :=
  { planning_state 100 16 with n_retries := 5, retry_pause := 5 }

/-- A state at the fan-in with two segments: segment 0 ended with
`PC_ERR_HTTP`, segment 1 with `PC_ERR_BYTES_WRITTEN`. -/
def state_two_failures : paracurl_state :=
  { planning_state 2500000 2 with
    outpath := "out", outpath_tmp := some "out.tmp", n_threads := 2,
    threads :=
      [{ index := 0, range_start := 0, range_len := 1250000, bytes_written := 0, fd := 3,
         status := PC_ERR_HTTP },
       { index := 1, range_start := 1250000, range_len := 1250000, bytes_written := 7, fd := 4,
         status := PC_ERR_BYTES_WRITTEN }] }

/-- A probe attempt answered 206 with the single header line `hdr`. -/
def probe_of (hdr : String) : probe_attempt :=
  { curl_handle_ok := true,
    headers := [{ data := hdr, header_malloc_ok := true, dest_malloc_ok := true }],
    perform_status := 0, http_code := 206 }

/-- An environment without failures: every probe attempt is answered 206 with
the header line `hdr`, and worker `i` receives `lens i` bytes with status 206 at
its first attempt. -/
def env_of (hdr : String) (lens : Nat → Nat) : download_env :=
  { state_alloc_ok := true, strings_alloc_ok := true, probes := fun _ => probe_of hdr,
    open_fd := 3, lseek := fun off => off, close_rc := 0, threads_alloc_ok := true,
    create_rc := fun _ => 0, workers := fun i => worker_env_of 0 (lens i) 0,
    join_rc := fun _ => 0, rename_rc := 0 }

/-- The arguments of a call `download("out", url, max_threads=..., n_retries=...)`,
the others at their defaults. -/
def args_of (max_threads n_retries : Int) : download_args :=
  { outpath := "out", url := "http://example.org/f", etag := none,
    max_threads := max_threads, n_retries := n_retries, retry_pause := 5, timeout := 0,
    connect_timeout := 60, debug := 0 }

/-- The header line of a 2,500,000-byte resource. -/
def header_2500000 : String := "Content-Range: bytes 0-0/2500000\r\n"

/-- A `Content-Range` header line whose total reads `-5`. -/
def header_negative : String := cr_prefix ++ "-5\r\n"

/-- The environment of a 2,500,000-byte download in which `pthread_create`
fails (with `EAGAIN`, 11) for thread 1 and nothing else fails. -/
def env_create_failure : download_env :=
  { env_of header_2500000 (fun i => if i < 2 then 1000000 else 500000) with
    create_rc := fun i => if i = 1 then 11 else 0 }

/-- The state of that download after the probe. -/
def state_probed : paracurl_state :=
  { paracurl_download_init (args_of 16 5) with content_length := 2500000 }

/-- The state of that download after planning. -/
def state_planned : paracurl_state :=
  (init_thread_info { state_probed with outpath_tmp := some (state_probed.outpath ++ ".tmp") }
    true).2

/-- The segment lengths 1,000,000, 1,000,000, 500,000. -/
def lens_2500000 (i : Nat) : Nat := if i < 2 then 1000000 else 500000

/-! ## Vocabulary of the planner properties -/

/-- Segment `j` of a plan of `n` segments of nominal length `seg` over
`content_length` bytes, as the loop body writes it. -/
def plan_entry (content_length seg : Int) (n j : Nat) : paracurl_thread :=
  { index := j, range_start := seg * j,
    range_len := if j + 1 = n then content_length - seg * j else seg,
    bytes_written := 0, fd := -1, status := 0 }

/-- Nominal segment length chosen by the planner for `c` bytes and `mt` threads. -/
def plan_seg (c mt : Nat) : Nat := if 1000000 ≤ c / mt then c / mt else 1000000

/-- Number of segments chosen by the planner for `c` bytes and `mt` threads. -/
def plan_n (c mt : Nat) : Nat := if 1000000 ≤ c / mt then mt else c / 1000000 + 1

/-! ## Planner: what the loop computes -/

theorem getD_append_cons {α : Type} (pre : List α) (z d : α) (rest : List α) :
    (pre ++ z :: rest).getD pre.length d = z := by
  induction pre with
  | nil => rfl
  | cons a pre ih => simpa using ih

theorem set_append_cons {α : Type} (pre : List α) (z v : α) (rest : List α) :
    (pre ++ z :: rest).set pre.length v = pre ++ v :: rest := by
  induction pre with
  | nil => rfl
  | cons a pre ih => simp [ih]

theorem last_index_eq (n : Nat) (h1 : 1 ≤ n) (h2 : n < 2 ^ 64) :
    (n + SIZE_MOD - 1) % SIZE_MOD = n - 1 := by
  unfold SIZE_MOD
  omega

theorem init_thread_info_loop_ok (cl seg : Int) (n : Nat) (hn : n < 2 ^ 64)
    (hseg : seg ≠ 0) (hlast : cl - seg * ((n - 1 : Nat) : Int) ≠ 0) :
    ∀ (left i : Nat) (pre : List paracurl_thread), i + (left + 1) = n → pre.length = i →
      init_thread_info_loop cl seg n (left + 1) i (seg * i)
          (pre ++ List.replicate (left + 1) calloc_thread)
        = (0, cl, pre ++ (List.range' i (left + 1)).map (plan_entry cl seg n)) := by
  intro left
  induction left with
  | zero =>
    intro i pre hi hpre
    have hidx : (n + SIZE_MOD - 1) % SIZE_MOD = i := by
      rw [last_index_eq n (by omega) hn]; omega
    have hni : n - 1 = i := by omega
    rw [hni] at hlast
    subst hpre
    simp only [init_thread_info_loop, hidx, if_true, hlast, if_false, List.replicate,
      getD_append_cons, set_append_cons, List.range', List.map, plan_entry, hi, calloc_thread,
      Nat.zero_add]
    simp
  | succ left ih =>
    intro i pre hi hpre
    have hidx : ¬ (i = (n + SIZE_MOD - 1) % SIZE_MOD) := by
      rw [last_index_eq n (by omega) hn]; omega
    have hni : ¬ (i + 1 = n) := by omega
    have hrep : List.replicate (left + 1 + 1) calloc_thread
        = calloc_thread :: List.replicate (left + 1) calloc_thread := rfl
    have hx : seg * (i : Int) + seg = seg * ((i + 1 : Nat) : Int) := by push_cast; ring
    subst hpre
    rw [hrep, init_thread_info_loop]
    simp only [hidx, if_false, hseg, getD_append_cons, set_append_cons]
    rw [hx]
    have := ih (pre.length + 1) (pre ++ [plan_entry cl seg n pre.length]) (by omega) (by simp)
    simp only [List.append_assoc, List.singleton_append, plan_entry, hni, if_false] at this
    have hz : calloc_thread.bytes_written = 0 ∧ calloc_thread.status = 0 := ⟨rfl, rfl⟩
    rw [hz.1, hz.2, this]
    simp [List.range', plan_entry, hni]

theorem init_thread_info_loop_assert (cl seg : Int) (n : Nat) (hn : n < 2 ^ 64)
    (hseg : seg ≠ 0) (hlast : cl - seg * ((n - 1 : Nat) : Int) = 0) :
    ∀ (left i : Nat) (threads : List paracurl_thread), i + (left + 1) = n →
      (init_thread_info_loop cl seg n (left + 1) i (seg * i) threads).1 = PC_ERR_ASSERT := by
  intro left
  induction left with
  | zero =>
    intro i threads hi
    have hidx : (n + SIZE_MOD - 1) % SIZE_MOD = i := by
      rw [last_index_eq n (by omega) hn]; omega
    have hni : n - 1 = i := by omega
    rw [hni] at hlast
    simp [init_thread_info_loop, hidx, hlast]
  | succ left ih =>
    intro i threads hi
    have hidx : ¬ (i = (n + SIZE_MOD - 1) % SIZE_MOD) := by
      rw [last_index_eq n (by omega) hn]; omega
    have hx : seg * (i : Int) + seg = seg * ((i + 1 : Nat) : Int) := by push_cast; ring
    rw [init_thread_info_loop]
    simp only [hidx, if_false, hseg]
    rw [hx]
    exact ih (i + 1) _ (by omega)

theorem to_size_t_natCast (c : Nat) (h : c < 2 ^ 64) : to_size_t (c : Int) = c := by
  unfold to_size_t SIZE_MOD
  have h1 : ((c : Int) % ((2 ^ 64 : Nat) : Int)) = (c : Int) :=
    Int.emod_eq_of_lt (by omega) (by push_cast; omega)
  rw [h1]
  simp

theorem to_off_t_small (k : Nat) (h : k < 2 ^ 63) : to_off_t k = (k : Int) := by
  unfold to_off_t SIZE_MOD
  have h1 : k % 2 ^ 64 = k := Nat.mod_eq_of_lt (by omega)
  rw [h1, if_pos h]

theorem tdiv_minseg (c : Nat) : Int.tdiv (c : Int) minseg = ((c / 1000000 : Nat) : Int) := by
  unfold minseg
  rw [Int.tdiv_eq_ediv (Int.natCast_nonneg c) (by norm_num)]
  norm_cast

theorem plan_n_pos (c mt : Nat) (hmt : 1 ≤ mt) : 1 ≤ plan_n c mt := by
  unfold plan_n; split <;> omega

theorem plan_n_lt (c mt : Nat) (hc : c < 2 ^ 63) (hmt : mt < 2 ^ 64) : plan_n c mt < 2 ^ 64 := by
  unfold plan_n; split <;> omega

theorem plan_seg_ge (c mt : Nat) : 1000000 ≤ plan_seg c mt := by
  unfold plan_seg; split <;> omega

/-- The nominal segments fit: `seg * (n - 1) ≤ c`, with equality only when the
megabyte floor is used and `c` is a multiple of 1,000,000. -/
theorem plan_fit (c mt : Nat) (hmt : 1 ≤ mt) :
    plan_seg c mt * (plan_n c mt - 1) ≤ c ∧
    (plan_seg c mt * (plan_n c mt - 1) = c ↔ (c / mt < 1000000 ∧ c % 1000000 = 0)) := by
  unfold plan_seg plan_n
  by_cases h : 1000000 ≤ c / mt
  · simp only [if_pos h]
    have h1 : c / mt * mt ≤ c := Nat.div_mul_le_self c mt
    have h2 : c / mt * (mt - 1) + c / mt = c / mt * mt := by
      obtain ⟨k, rfl⟩ : ∃ k, mt = k + 1 := ⟨mt - 1, by omega⟩
      rw [Nat.add_sub_cancel, Nat.mul_succ]
    constructor
    · omega
    · constructor
      · intro h3; omega
      · intro h3; omega
  · simp only [if_neg h]
    constructor
    · omega
    · constructor
      · intro h3; omega
      · intro h3; omega

/-- Evaluation of `init_thread_info` on a well-typed input with positive content
length and `max_threads ≥ 1`. -/
theorem init_thread_info_eval (st : paracurl_state) (c mt : Nat)
    (hcl : st.content_length = (c : Int)) (hmx : st.max_threads = mt)
    (hc : c < 2 ^ 63) (hmt1 : 1 ≤ mt) (hmt2 : mt < 2 ^ 64) :
    (plan_seg c mt * (plan_n c mt - 1) ≠ c →
      init_thread_info st true =
        (0, { st with
              threads := (List.range' 0 (plan_n c mt)).map
                (plan_entry c (plan_seg c mt) (plan_n c mt)),
              n_threads := plan_n c mt })) ∧
    (plan_seg c mt * (plan_n c mt - 1) = c →
      (init_thread_info st true).1 = PC_ERR_ASSERT) := by
  have hdiv : c / mt < 2 ^ 63 := lt_of_le_of_lt (Nat.div_le_self c mt) hc
  have hseg0 : to_off_t (to_size_t st.content_length / st.max_threads) = ((c / mt : Nat) : Int) := by
    rw [hcl, hmx, to_size_t_natCast c (by omega), to_off_t_small _ hdiv]
  have hge : (((c / mt : Nat) : Int) ≥ minseg) ↔ 1000000 ≤ c / mt := by
    unfold minseg; omega
  have hsegv : (if ((c / mt : Nat) : Int) ≥ minseg then ((c / mt : Nat) : Int) else minseg)
      = ((plan_seg c mt : Nat) : Int) := by
    unfold plan_seg
    by_cases h : 1000000 ≤ c / mt
    · rw [if_pos (hge.2 h), if_pos h]
    · rw [if_neg (fun h2 => h (hge.1 h2)), if_neg h]; rfl
  have hnv : (if ((c / mt : Nat) : Int) ≥ minseg then mt
      else to_size_t (Int.tdiv (c : Int) minseg + 1)) = plan_n c mt := by
    unfold plan_n
    by_cases h : 1000000 ≤ c / mt
    · rw [if_pos (hge.2 h), if_pos h]
    · rw [if_neg (fun h2 => h (hge.1 h2)), if_neg h, tdiv_minseg]
      have : ((c / 1000000 : Nat) : Int) + 1 = ((c / 1000000 + 1 : Nat) : Int) := by push_cast; ring
      rw [this, to_size_t_natCast _ (by omega)]
  have hn1 := plan_n_pos c mt hmt1
  have hn2 := plan_n_lt c mt hc hmt2
  have hsg := plan_seg_ge c mt
  have hsegne : ((plan_seg c mt : Nat) : Int) ≠ 0 := by omega
  have hmx0 : ¬ (st.max_threads ≤ 0) := by omega
  obtain ⟨m, hm⟩ : ∃ m, plan_n c mt = m + 1 := ⟨plan_n c mt - 1, by omega⟩
  constructor
  · intro hne
    have hlast : (c : Int) - ((plan_seg c mt : Nat) : Int) * ((plan_n c mt - 1 : Nat) : Int) ≠ 0 := by
      intro h0
      apply hne
      have : ((plan_seg c mt * (plan_n c mt - 1) : Nat) : Int) = (c : Int) := by
        push_cast; linarith
      exact_mod_cast this
    have hloop := init_thread_info_loop_ok (c : Int) (plan_seg c mt) (plan_n c mt) hn2 hsegne hlast
      m 0 [] (by omega) rfl
    simp only [Nat.cast_zero, mul_zero, List.nil_append] at hloop
    unfold init_thread_info
    simp only [if_neg hmx0, hseg0, hsegv]
    rw [hmx, hcl, hnv]
    simp only [Bool.not_true, Bool.false_eq_true, if_false]
    rw [hm] at hloop ⊢
    rw [hloop]
    simp [hcl]
  · intro heq
    have hlast : (c : Int) - ((plan_seg c mt : Nat) : Int) * ((plan_n c mt - 1 : Nat) : Int) = 0 := by
      have : ((plan_seg c mt * (plan_n c mt - 1) : Nat) : Int) = (c : Int) := by exact_mod_cast heq
      push_cast at this; linarith
    have hloop := init_thread_info_loop_assert (c : Int) (plan_seg c mt) (plan_n c mt) hn2 hsegne
      hlast m 0 (List.replicate (plan_n c mt) calloc_thread) (by omega)
    simp only [Nat.cast_zero, mul_zero] at hloop
    unfold init_thread_info
    simp only [if_neg hmx0, hseg0, hsegv]
    rw [hmx, hcl, hnv]
    simp only [Bool.not_true, Bool.false_eq_true, if_false]
    rw [hm] at hloop ⊢
    generalize init_thread_info_loop (↑c) (↑(plan_seg c mt)) (m + 1) (m + 1) 0 0
      (List.replicate (m + 1) calloc_thread) = r at hloop ⊢
    obtain ⟨rc, x, thr⟩ := r
    simp only at hloop
    subst hloop
    simp [PC_ERR_ASSERT]

/-- Whenever planning returns 0 on a well-typed input, the thread array is the
list of `plan_entry` records and the last segment is not empty. -/
theorem init_thread_info_plan (st : paracurl_state) (calloc_ok : Bool) (c : Nat)
    (hcl : st.content_length = (c : Int)) (hc : c < 2 ^ 63)
    (hmt1 : 1 ≤ st.max_threads) (hmt2 : st.max_threads < 2 ^ 64)
    (hret : (init_thread_info st calloc_ok).1 = 0) :
    (init_thread_info st calloc_ok).2.threads =
        (List.range (plan_n c st.max_threads)).map
          (plan_entry c (plan_seg c st.max_threads) (plan_n c st.max_threads)) ∧
      (init_thread_info st calloc_ok).2.n_threads = plan_n c st.max_threads ∧
      plan_seg c st.max_threads * (plan_n c st.max_threads - 1) < c := by
  cases calloc_ok with
  | false =>
    exfalso
    have h0 : ¬ (st.max_threads ≤ 0) := by omega
    simp [init_thread_info, h0, PC_ERR_ALLOC] at hret
  | true =>
    have hev := init_thread_info_eval st c st.max_threads hcl rfl hc hmt1 hmt2
    have hfit := (plan_fit c st.max_threads hmt1).1
    by_cases heq : plan_seg c st.max_threads * (plan_n c st.max_threads - 1) = c
    · exfalso
      rw [hev.2 heq] at hret
      simp [PC_ERR_ASSERT] at hret
    · rw [hev.1 heq]
      refine ⟨?_, rfl, lt_of_le_of_ne hfit heq⟩
      simp [List.range_eq_range']

theorem plan_entry_lens (c : Int) (seg : Int) (m : Nat) :
    (((List.range (m + 1)).map (plan_entry c seg (m + 1))).map fun t => t.range_len)
      = List.replicate m seg ++ [c - seg * m] := by
  rw [List.range_succ, List.map_append, List.map_append]
  have h1 : ((List.range m).map (plan_entry c seg (m + 1))).map (fun t => t.range_len)
      = List.replicate m seg := by
    rw [List.map_map, List.eq_replicate_iff]
    refine ⟨by simp, ?_⟩
    intro b hb
    rw [List.mem_map] at hb
    obtain ⟨j, hj, rfl⟩ := hb
    have : ¬ (j + 1 = m + 1) := by
      have := List.mem_range.1 hj
      omega
    simp [plan_entry, this]
  rw [h1]
  simp [plan_entry]

theorem plan_entry_sum (c : Int) (seg : Int) (m : Nat) :
    (((List.range (m + 1)).map (plan_entry c seg (m + 1))).map fun t => t.range_len).sum = c := by
  rw [plan_entry_lens, List.sum_append]
  simp
  ring

/-- C1 (planner invariant): for every content length `> 0` and every
`max_threads ≥ 1` (both within their C types), whenever `init_thread_info`
returns 0 the planned segments `0 .. n_threads-1` are an exact partition of
`[0, content_length)`: there is at least one segment, segment `j` carries index
`j`, segment 0 starts at offset 0, every later segment starts at the previous
segment's `range_start + range_len`, every `range_len` is positive and the
`range_len` values sum to `content_length`. -/
theorem init_thread_info_partition (st : paracurl_state) (calloc_ok : Bool)
    (hpos : 0 < st.content_length) (hoff : st.content_length < 2 ^ 63)
    (hmt1 : 1 ≤ st.max_threads) (hmt2 : st.max_threads < 2 ^ 64)
    (hret : (init_thread_info st calloc_ok).1 = 0) :
    0 < (init_thread_info st calloc_ok).2.n_threads ∧
    (init_thread_info st calloc_ok).2.threads.length
      = (init_thread_info st calloc_ok).2.n_threads ∧
    (∀ (j : Nat) (t : paracurl_thread),
      (init_thread_info st calloc_ok).2.threads[j]? = some t → t.index = j) ∧
    (∃ t, (init_thread_info st calloc_ok).2.threads[0]? = some t ∧ t.range_start = 0) ∧
    (∀ (j : Nat) (a b : paracurl_thread),
      (init_thread_info st calloc_ok).2.threads[j]? = some a →
      (init_thread_info st calloc_ok).2.threads[j + 1]? = some b →
      b.range_start = a.range_start + a.range_len) ∧
    (∀ t ∈ (init_thread_info st calloc_ok).2.threads, 0 < t.range_len) ∧
    ((init_thread_info st calloc_ok).2.threads.map fun t => t.range_len).sum
      = st.content_length := by
  obtain ⟨c, hc⟩ := Int.eq_ofNat_of_zero_le (le_of_lt hpos)
  have hc63 : c < 2 ^ 63 := by rw [hc] at hoff; exact_mod_cast hoff
  obtain ⟨hthr, hn, hlt⟩ := init_thread_info_plan st calloc_ok c hc hc63 hmt1 hmt2 hret
  have hn1 := plan_n_pos c st.max_threads hmt1
  have hsg := plan_seg_ge c st.max_threads
  rw [hthr, hn]
  obtain ⟨m, hm⟩ : ∃ m, plan_n c st.max_threads = m + 1 :=
    ⟨plan_n c st.max_threads - 1, by omega⟩
  refine ⟨by omega, by simp, ?_, ?_, ?_, ?_, ?_⟩
  · intro j t ht
    rw [List.getElem?_map] at ht
    by_cases hj : j < plan_n c st.max_threads
    · rw [List.getElem?_range hj] at ht
      simp only [Option.map_some', Option.some.injEq] at ht
      rw [← ht]; rfl
    · rw [List.getElem?_eq_none (by simpa using hj)] at ht
      simp at ht
  · refine ⟨plan_entry c (plan_seg c st.max_threads) (plan_n c st.max_threads) 0, ?_, ?_⟩
    · rw [List.getElem?_map, List.getElem?_range (by omega)]; rfl
    · simp [plan_entry]
  · intro j a b ha hb
    rw [List.getElem?_map] at ha hb
    by_cases hj : j + 1 < plan_n c st.max_threads
    · rw [List.getElem?_range (by omega)] at ha
      rw [List.getElem?_range hj] at hb
      simp only [Option.map_some', Option.some.injEq] at ha hb
      have hne : ¬ (j + 1 = plan_n c st.max_threads) := by omega
      rw [← ha, ← hb]
      simp only [plan_entry, hne, if_false]
      push_cast; ring
    · rw [List.getElem?_eq_none (by simpa using hj)] at hb
      simp at hb
  · intro t ht
    rw [List.mem_map] at ht
    obtain ⟨j, hj, rfl⟩ := ht
    have hjlt := List.mem_range.1 hj
    by_cases hlast : j + 1 = plan_n c st.max_threads
    · simp only [plan_entry, hlast, if_true]
      have hj' : j = plan_n c st.max_threads - 1 := by omega
      have : ((plan_seg c st.max_threads * (plan_n c st.max_threads - 1) : Nat) : Int) < (c : Int) := by
        exact_mod_cast hlt
      rw [hj']
      push_cast at this ⊢
      linarith
    · simp only [plan_entry, hlast, if_false]
      omega
  · rw [hm, hc]
    exact plan_entry_sum c _ m

/-- C1 at content length 2,500,000 with 16 threads. -/
theorem init_thread_info_partition_witness :
    (0 < (planning_state 2500000 16).content_length ∧
      (init_thread_info (planning_state 2500000 16) true).1 = 0) ∧
    ((init_thread_info (planning_state 2500000 16) true).2.threads.map
      fun t => t.range_len).sum = (planning_state 2500000 16).content_length :=
  ⟨⟨by decide, by decide⟩,
    (init_thread_info_partition (planning_state 2500000 16) true (by decide) (by decide)
      (by decide) (by decide) (by decide)).2.2.2.2.2.2⟩

/-- C5 (two-tier sizing): for every content length `> 0` and `max_threads ≥ 1`
(both within their C types) for which `init_thread_info` returns a plan: if
`content_length / max_threads ≥ 1,000,000` the plan has exactly `max_threads`
segments, the first `max_threads - 1` of length `content_length / max_threads`
and the last of length
`content_length - (content_length / max_threads) * (max_threads - 1)`; otherwise
it has `content_length / 1,000,000 + 1` segments, all but the last of length
1,000,000 and the last holding the remainder. -/
theorem init_thread_info_two_tier (st : paracurl_state) (calloc_ok : Bool)
    (hpos : 0 < st.content_length) (hoff : st.content_length < 2 ^ 63)
    (hmt1 : 1 ≤ st.max_threads) (hmt2 : st.max_threads < 2 ^ 64)
    (hret : (init_thread_info st calloc_ok).1 = 0) :
    (1000000 ≤ st.content_length / (st.max_threads : Int) →
      (init_thread_info st calloc_ok).2.n_threads = st.max_threads ∧
      (init_thread_info st calloc_ok).2.threads.length = st.max_threads ∧
      ((init_thread_info st calloc_ok).2.threads.map fun t => t.range_len)
        = List.replicate (st.max_threads - 1) (st.content_length / (st.max_threads : Int))
          ++ [st.content_length
                - st.content_length / (st.max_threads : Int) * ((st.max_threads : Int) - 1)]) ∧
    (st.content_length / (st.max_threads : Int) < 1000000 →
      (init_thread_info st calloc_ok).2.n_threads = (st.content_length / 1000000).toNat + 1 ∧
      (init_thread_info st calloc_ok).2.threads.length
        = (st.content_length / 1000000).toNat + 1 ∧
      ((init_thread_info st calloc_ok).2.threads.map fun t => t.range_len)
        = List.replicate (st.content_length / 1000000).toNat 1000000
          ++ [st.content_length - 1000000 * (st.content_length / 1000000)]) := by
  obtain ⟨c, hc⟩ := Int.eq_ofNat_of_zero_le (le_of_lt hpos)
  have hc63 : c < 2 ^ 63 := by rw [hc] at hoff; exact_mod_cast hoff
  obtain ⟨hthr, hn, -⟩ := init_thread_info_plan st calloc_ok c hc hc63 hmt1 hmt2 hret
  have hn1 := plan_n_pos c st.max_threads hmt1
  obtain ⟨m, hm⟩ : ∃ m, plan_n c st.max_threads = m + 1 :=
    ⟨plan_n c st.max_threads - 1, by omega⟩
  have hlen : (init_thread_info st calloc_ok).2.threads.length = plan_n c st.max_threads := by
    rw [hthr]; simp
  have hlens : ((init_thread_info st calloc_ok).2.threads.map fun t => t.range_len)
      = List.replicate m ((plan_seg c st.max_threads : Nat) : Int)
        ++ [(c : Int) - ((plan_seg c st.max_threads : Nat) : Int) * m] := by
    rw [hthr, hm]; exact plan_entry_lens _ _ m
  have hdiv : st.content_length / (st.max_threads : Int) = ((c / st.max_threads : Nat) : Int) := by
    rw [hc]; norm_cast
  have hdiv2 : st.content_length / 1000000 = ((c / 1000000 : Nat) : Int) := by
    rw [hc]; norm_cast
  rw [hlen, hn, hlens, hdiv, hdiv2]
  constructor
  · intro hge
    have hge' : 1000000 ≤ c / st.max_threads := by exact_mod_cast hge
    have hpn : plan_n c st.max_threads = st.max_threads := by simp [plan_n, hge']
    have hps : plan_seg c st.max_threads = c / st.max_threads := by simp [plan_seg, hge']
    have hm' : m = st.max_threads - 1 := by omega
    have hcast : ((st.max_threads - 1 : Nat) : Int) = (st.max_threads : Int) - 1 := by
      push_cast [Nat.cast_sub hmt1]; ring
    rw [hps, hm', hcast, hc]
    exact ⟨hpn, hpn, rfl⟩
  · intro hlt
    have hlt' : ¬ (1000000 ≤ c / st.max_threads) := by
      intro h
      have : (1000000 : Int) ≤ ((c / st.max_threads : Nat) : Int) := by exact_mod_cast h
      omega
    have hpn : plan_n c st.max_threads = c / 1000000 + 1 := by simp [plan_n, hlt']
    have hps : plan_seg c st.max_threads = 1000000 := by simp [plan_seg, hlt']
    have hm' : m = c / 1000000 := by omega
    rw [hps, hm', hc, Int.toNat_ofNat]
    exact ⟨hpn, hpn, rfl⟩

/-- C5 at its two stated inputs: 2,500,000 bytes with 16 threads gives the
lengths 1,000,000, 1,000,000, 500,000; 32,000,000 bytes with 4 threads gives
four segments of 8,000,000. -/
theorem init_thread_info_two_tier_witness :
    ((init_thread_info (planning_state 2500000 16) true).2.threads.map fun t => t.range_len)
      = [1000000, 1000000, 500000] ∧
    ((init_thread_info (planning_state 32000000 4) true).2.threads.map fun t => t.range_len)
      = [8000000, 8000000, 8000000, 8000000] :=
  ⟨((init_thread_info_two_tier (planning_state 2500000 16) true (by decide) (by decide)
      (by decide) (by decide) (by decide)).2 (by decide)).2.2.trans (by decide),
   ((init_thread_info_two_tier (planning_state 32000000 4) true (by decide) (by decide)
      (by decide) (by decide) (by decide)).1 (by decide)).2.2.trans (by decide)⟩

/-- C4 (failing input): a content length of exactly 1,000,000 bytes with
`max_threads = 16` makes `init_thread_info` return `PC_ERR_ASSERT` and leave
`n_threads` at 0. -/
theorem init_thread_info_assert_fires :
    (init_thread_info (planning_state 1000000 16) true).1 = PC_ERR_ASSERT ∧
    (init_thread_info (planning_state 1000000 16) true).2.n_threads = 0 := by
  decide

/-- When planning returns `PC_ERR_ASSERT`: on a well-typed input with positive
content length and `max_threads ≥ 1` (allocation succeeding) exactly when the
megabyte floor is in use and the content length is a multiple of 1,000,000. -/
theorem init_thread_info_assert_iff (st : paracurl_state)
    (hpos : 0 < st.content_length) (hoff : st.content_length < 2 ^ 63)
    (hmt1 : 1 ≤ st.max_threads) (hmt2 : st.max_threads < 2 ^ 64) :
    (init_thread_info st true).1 = PC_ERR_ASSERT ↔
      (st.content_length / (st.max_threads : Int) < 1000000 ∧
        st.content_length % 1000000 = 0) := by
  obtain ⟨c, hc⟩ := Int.eq_ofNat_of_zero_le (le_of_lt hpos)
  have hc63 : c < 2 ^ 63 := by rw [hc] at hoff; exact_mod_cast hoff
  have hev := init_thread_info_eval st c st.max_threads hc rfl hc63 hmt1 hmt2
  have hfit := (plan_fit c st.max_threads hmt1).2
  have hdiv : st.content_length / (st.max_threads : Int) = ((c / st.max_threads : Nat) : Int) := by
    rw [hc]; norm_cast
  have hmod : st.content_length % 1000000 = ((c % 1000000 : Nat) : Int) := by
    rw [hc]; norm_cast
  rw [hdiv, hmod]
  constructor
  · intro h
    by_cases heq : plan_seg c st.max_threads * (plan_n c st.max_threads - 1) = c
    · have := hfit.1 heq
      constructor
      · exact_mod_cast this.1
      · exact_mod_cast this.2
    · rw [hev.1 heq] at h
      simp [PC_ERR_ASSERT] at h
  · rintro ⟨h1, h2⟩
    apply hev.2
    apply hfit.2
    constructor
    · exact_mod_cast h1
    · exact_mod_cast h2

/-! ## Write callback: the clamp -/

theorem to_size_t_of_nonneg (v : Int) (h0 : 0 ≤ v) (h1 : v < 2 ^ 64) :
    ((to_size_t v : Nat) : Int) = v := by
  unfold to_size_t SIZE_MOD
  have h2 : v % ((2 ^ 64 : Nat) : Int) = v := Int.emod_eq_of_lt h0 (by push_cast; omega)
  rw [h2]
  exact Int.toNat_of_nonneg h0

theorem write_data_segment_same (thr : paracurl_thread) (c : chunk) :
    same_segment thr (write_data_segment thr c).thr := by
  unfold write_data_segment same_segment
  simp only
  split <;> split <;> simp

/-- One call of the callback keeps `0 ≤ bytes_written ≤ range_len` and hands at
most `range_len - bytes_written` bytes to `write`, as long as
`bytes_written + size` does not wrap around in `size_t`. -/
theorem write_data_segment_step (thr : paracurl_thread) (c : chunk)
    (h0 : 0 ≤ thr.bytes_written) (h1 : thr.bytes_written ≤ thr.range_len)
    (h2 : thr.range_len < 2 ^ 63) (hw : write_behaves c)
    (hc : ((c.size * c.nmemb % SIZE_MOD : Nat) : Int) + thr.range_len < 2 ^ 64) :
    0 ≤ (write_data_segment thr c).thr.bytes_written ∧
    (write_data_segment thr c).thr.bytes_written ≤ thr.range_len ∧
    ((write_data_segment thr c).requested : Int) ≤ thr.range_len - thr.bytes_written ∧
    (c.write (write_data_segment thr c).requested = -1 →
      (write_data_segment thr c).thr.bytes_written = thr.bytes_written) := by
  have hb := to_size_t_of_nonneg thr.bytes_written h0 (by omega)
  have hr := to_size_t_of_nonneg thr.range_len (by omega) (by omega)
  have hd := to_size_t_of_nonneg (thr.range_len - thr.bytes_written) (by omega) (by omega)
  generalize hs : c.size * c.nmemb % SIZE_MOD = s at hc
  have hreq : ((if (to_size_t thr.bytes_written + s) % SIZE_MOD > to_size_t thr.range_len then
      to_size_t (thr.range_len - thr.bytes_written) else s : Nat) : Int)
      ≤ thr.range_len - thr.bytes_written := by
    have hnowrap : (to_size_t thr.bytes_written + s) % SIZE_MOD = to_size_t thr.bytes_written + s := by
      apply Nat.mod_eq_of_lt
      unfold SIZE_MOD
      omega
    rw [hnowrap]
    split
    · omega
    · omega
  unfold write_data_segment
  simp only [hs]
  generalize (if (to_size_t thr.bytes_written + s) % SIZE_MOD > to_size_t thr.range_len then
      to_size_t (thr.range_len - thr.bytes_written) else s) = req at hreq
  rcases hw req with hfail | ⟨hlo, hhi⟩
  · simp [hfail, h0, h1, hreq]
  · have hne : ¬ (c.write req = -1) := by omega
    simp only [hne, if_false]
    refine ⟨?_, ?_, hreq, ?_⟩
    · show 0 ≤ thr.bytes_written + c.write req
      omega
    · show thr.bytes_written + c.write req ≤ thr.range_len
      omega
    · intro h; exact h.elim

theorem callback_trace_invariant (R : Int) (hR : R < 2 ^ 63) :
    ∀ (cs : List chunk) (thr : paracurl_thread), thr.range_len = R →
      0 ≤ thr.bytes_written → thr.bytes_written ≤ R →
      (∀ c ∈ cs, write_behaves c) →
      (∀ c ∈ cs, ((c.size * c.nmemb % SIZE_MOD : Nat) : Int) + R < 2 ^ 64) →
      (∀ e ∈ callback_trace thr cs,
        0 ≤ e.2.2.thr.bytes_written ∧ e.2.2.thr.bytes_written ≤ R ∧
        (e.2.2.requested : Int) ≤ R - e.1.bytes_written ∧
        (e.2.1.write e.2.2.requested = -1 → e.2.2.thr.bytes_written = e.1.bytes_written)) ∧
      0 ≤ (run_callbacks thr cs).bytes_written ∧ (run_callbacks thr cs).bytes_written ≤ R := by
  intro cs
  induction cs with
  | nil =>
    intro thr _ h0 h1 _ _
    exact ⟨by simp [callback_trace], by simpa [run_callbacks] using h0,
      by simpa [run_callbacks] using h1⟩
  | cons c cs ih =>
    intro thr hlen h0 h1 hw hc
    have hstep := write_data_segment_step thr c h0 (hlen ▸ h1) (hlen ▸ hR)
      (hw c (List.mem_cons_self _ _)) (hlen ▸ hc c (List.mem_cons_self _ _))
    rw [hlen] at hstep
    have hsame := write_data_segment_same thr c
    have hrec := ih (write_data_segment thr c).thr (hsame.2.2.1 ▸ hlen) hstep.1 hstep.2.1
      (fun c' hc' => hw c' (List.mem_cons_of_mem _ hc'))
      (fun c' hc' => hc c' (List.mem_cons_of_mem _ hc'))
    refine ⟨?_, ?_⟩
    · intro e he
      simp only [callback_trace, List.mem_cons] at he
      rcases he with rfl | he
      · exact hstep
      · exact hrec.1 e he
    · simpa [run_callbacks] using hrec.2

/-- C10 (write clamp): starting from `bytes_written = 0` with `0 ≤ range_len`,
for every sequence of incoming chunks, of any byte count `size * nmemb` a
buffer in memory can have (below `2 ^ 63`), and every behaviour of `write`
(failing, or writing any count from 0 up to the count requested), at each
callback `0 ≤ bytes_written ≤ range_len` holds afterwards, the count handed to
`write` is at most `range_len - bytes_written`, and `bytes_written` is unchanged
when the write fails; so `bytes_written` never passes `range_len` within the
attempt. -/
theorem write_data_segment_clamp (thr : paracurl_thread) (cs : List chunk)
    (hstart : thr.bytes_written = 0) (hlen0 : 0 ≤ thr.range_len)
    (hlen : thr.range_len < 2 ^ 63)
    (hwrite : ∀ c ∈ cs, write_behaves c)
    (hsize : ∀ c ∈ cs, c.size * c.nmemb < 2 ^ 63) :
    (∀ e ∈ callback_trace thr cs,
      0 ≤ e.2.2.thr.bytes_written ∧ e.2.2.thr.bytes_written ≤ thr.range_len ∧
      (e.2.2.requested : Int) ≤ thr.range_len - e.1.bytes_written ∧
      (e.2.1.write e.2.2.requested = -1 → e.2.2.thr.bytes_written = e.1.bytes_written)) ∧
    0 ≤ (run_callbacks thr cs).bytes_written ∧
    (run_callbacks thr cs).bytes_written ≤ thr.range_len :=
  callback_trace_invariant thr.range_len hlen cs thr rfl (by omega) (by omega) hwrite
    (fun c hc => by
      have h1 := hsize c hc
      have h2 : c.size * c.nmemb % SIZE_MOD = c.size * c.nmemb :=
        Nat.mod_eq_of_lt (by unfold SIZE_MOD; omega)
      rw [h2]
      have h3 : ((c.size * c.nmemb : Nat) : Int) < 2 ^ 63 := by exact_mod_cast h1
      omega)

/-- C10 on a 100-byte segment receiving 10 and then 200 bytes: the second
chunk is clamped to the 90 bytes left. -/
theorem write_data_segment_clamp_witness :
    (thr_100.bytes_written = 0 ∧ 0 ≤ thr_100.range_len) ∧
    (run_callbacks thr_100 chunks_10_200).bytes_written ≤ thr_100.range_len :=
  ⟨⟨rfl, by decide⟩,
    (write_data_segment_clamp thr_100 chunks_10_200 rfl (by decide) (by decide)
      (by
        intro c hc n
        simp only [chunks_10_200, List.mem_cons, List.mem_singleton, List.not_mem_nil,
          or_false] at hc
        rcases hc with rfl | rfl <;> simp)
      (by
        intro c hc
        simp only [chunks_10_200, List.mem_cons, List.mem_singleton, List.not_mem_nil,
          or_false] at hc
        rcases hc with rfl | rfl <;> decide)).2.2⟩

/-- Why the clamp lemmas bound the byte count: the guard adds `bytes_written`
and `size` in `size_t`, so for a `size * nmemb` of `2 ^ 64 - 5`, a count no
buffer in memory has, the sum wraps around and the guard does not fire. -/
theorem write_data_segment_guard_wraps :
    (callback_trace thr_100 chunks_wrap).map
        (fun e => (e.1.bytes_written, e.2.2.requested, e.2.2.thr.bytes_written))
      = [(0, 10, 10), (10, 2 ^ 64 - 5, 4106)] := by
  decide

/-! ## Segment worker -/

theorem same_segment_refl (a : paracurl_thread) : same_segment a a :=
  ⟨rfl, rfl, rfl, rfl, rfl⟩

theorem same_segment_trans {a b c : paracurl_thread} (h1 : same_segment a b)
    (h2 : same_segment b c) : same_segment a c :=
  ⟨h1.1.trans h2.1, h1.2.1.trans h2.2.1, h1.2.2.1.trans h2.2.2.1,
    h1.2.2.2.1.trans h2.2.2.2.1, h1.2.2.2.2.trans h2.2.2.2.2⟩

theorem same_segment_reset (a : paracurl_thread) (b : Int) :
    same_segment a { a with bytes_written := b } :=
  ⟨rfl, rfl, rfl, rfl, rfl⟩

theorem run_callbacks_same (cs : List chunk) :
    ∀ thr : paracurl_thread, same_segment thr (run_callbacks thr cs) := by
  induction cs with
  | nil => intro thr; exact same_segment_refl thr
  | cons c cs ih =>
    intro thr
    exact same_segment_trans (write_data_segment_same thr c) (ih (write_data_segment thr c).thr)

theorem write_data_segment_bytes_congr (t1 t2 : paracurl_thread) (c : chunk)
    (hl : t1.range_len = t2.range_len) (hb : t1.bytes_written = t2.bytes_written) :
    (write_data_segment t1 c).thr.bytes_written = (write_data_segment t2 c).thr.bytes_written := by
  unfold write_data_segment
  simp only [hl, hb]
  split <;> split <;> simp [hb]

theorem run_callbacks_bytes_congr (cs : List chunk) :
    ∀ t1 t2 : paracurl_thread, t1.range_len = t2.range_len →
      t1.bytes_written = t2.bytes_written →
      (run_callbacks t1 cs).bytes_written = (run_callbacks t2 cs).bytes_written := by
  induction cs with
  | nil => intro t1 t2 _ hb; exact hb
  | cons c cs ih =>
    intro t1 t2 hl hb
    have h1 := write_data_segment_same t1 c
    have h2 := write_data_segment_same t2 c
    exact ih _ _ (h1.2.2.1.symm.trans (hl.trans h2.2.2.1))
      (write_data_segment_bytes_congr t1 t2 c hl hb)

/-- The retry loop changes nothing of the thread record but `bytes_written`. -/
theorem thread_func_loop_same (W : Int) (state : paracurl_state) (env : worker_env) :
    ∀ (left i : Nat) (status : Int) (thr : paracurl_thread) (p : Nat) (sl : List Nat),
      same_segment thr (thread_func_loop W state env left i status thr p sl).thr := by
  intro left
  induction left with
  | zero => intro i status thr p sl; exact same_segment_refl thr
  | succ left ih =>
    intro i status thr p sl
    have h0 := same_segment_reset thr 0
    have h1 := same_segment_trans h0
      (run_callbacks_same (env.attempts i).chunks { thr with bytes_written := 0 })
    unfold thread_func_loop
    simp only
    split
    · exact same_segment_refl thr
    · split
      · exact h0
      · split
        · split
          · exact h1
          · exact same_segment_trans h1 (ih _ _ _ _ _)
        · split
          · exact same_segment_trans h1 (ih _ _ _ _ _)
          · split
            · exact same_segment_trans h1 (ih _ _ _ _ _)
            · exact h1

/-- The label `done:` leaves the local `status`, the attempt count and the
sleeps as they are. -/
theorem thread_func_done_fields (env : worker_env) (r : thread_result) :
    (thread_func_done env r).status = r.status ∧
    (thread_func_done env r).performs = r.performs ∧
    (thread_func_done env r).sleeps = r.sleeps :=
  ⟨rfl, rfl, rfl⟩

/-- C8, as amended (close failure): for every worker run in which the temporary
file was opened and the final `close` fails, the status the worker leaves in
its segment is `PC_ERR_CLOSE` when the status held before the close is success
(0), and is that earlier status when it is an error: an earlier error wins over
the close failure. -/
theorem thread_func_close_failure (W : Int) (state : paracurl_state) (thr : paracurl_thread)
    (env : worker_env) (hopen : env.open_fd ≠ -1) (hclose : env.close_rc ≠ 0) :
    (thread_func W state thr env).thr.status =
      if (thread_func W state thr env).status = 0 then PC_ERR_CLOSE
      else (thread_func W state thr env).status := by
  have hfd := (thread_func_loop_same W state env state.n_retries 0 0
    { thr with fd := env.open_fd } 0 []).2.2.2.1
  simp only at hfd
  unfold thread_func
  simp only [hopen, if_false]
  generalize thread_func_loop W state env state.n_retries 0 0
    { thr with fd := env.open_fd } 0 [] = r at hfd
  have hrfd : r.thr.fd ≠ -1 := by rw [← hfd]; exact hopen
  unfold thread_func_done
  simp only [hrfd, hclose, ne_eq, not_false_eq_true, if_true]
  by_cases hs : r.status = 0
  · simp [hs]
  · simp [hs]

/-- C8 as amended, on a worker whose only attempt is answered 503 and whose
`close` fails. -/
theorem thread_func_close_failure_witness :
    ((worker_env_of 1 100 (-1)).open_fd ≠ -1 ∧ (worker_env_of 1 100 (-1)).close_rc ≠ 0) ∧
    (thread_func 23 { state_default with n_retries := 1 } thr_100
        (worker_env_of 1 100 (-1))).thr.status =
      if (thread_func 23 { state_default with n_retries := 1 } thr_100
        (worker_env_of 1 100 (-1))).status = 0 then PC_ERR_CLOSE
      else (thread_func 23 { state_default with n_retries := 1 } thr_100
        (worker_env_of 1 100 (-1))).status :=
  ⟨⟨by decide, by decide⟩,
    thread_func_close_failure 23 { state_default with n_retries := 1 } thr_100
      (worker_env_of 1 100 (-1)) (by decide) (by decide)⟩

/-- C8 as stated fails: a worker that opened the temporary file, whose single
attempt is answered 503 (status `PC_ERR_HTTP` before the close) and whose
`close` fails, leaves `PC_ERR_HTTP` in its segment, not `PC_ERR_CLOSE`. -/
theorem thread_func_close_failure_counterexample :
    (worker_env_of 1 100 (-1)).open_fd ≠ -1 ∧ (worker_env_of 1 100 (-1)).close_rc ≠ 0 ∧
    (thread_func 23 { state_default with n_retries := 1 } thr_100
        (worker_env_of 1 100 (-1))).thr.status = PC_ERR_HTTP ∧
    (thread_func 23 { state_default with n_retries := 1 } thr_100
        (worker_env_of 1 100 (-1))).thr.status ≠ PC_ERR_CLOSE := by
  decide

theorem attempt_bytes_congr (thr thr0 : paracurl_thread) (a : attempt)
    (hl : thr.range_len = thr0.range_len) :
    (run_callbacks { thr with bytes_written := 0 } a.chunks).bytes_written
      = attempt_bytes thr0 a :=
  run_callbacks_bytes_congr a.chunks _ _ hl rfl

/-- The retry loop from iteration `i` on, when the next `k` attempts fail in a
retryable way and the one after them succeeds. -/
theorem thread_func_loop_retry (W : Int) (state : paracurl_state) (env : worker_env)
    (thr0 : paracurl_thread) (hpause : state.retry_pause ≠ 0) :
    ∀ (k left i : Nat) (status : Int) (thr : paracurl_thread) (p : Nat) (sl : List Nat),
      k < left → thr.range_start = thr0.range_start → thr.range_len = thr0.range_len →
      (∀ j, j < k → retryable_failure W thr0 (env.attempts (i + j))) →
      successful_attempt thr0 (env.attempts (i + k)) →
      (thread_func_loop W state env left i status thr p sl).status = 0 ∧
      (thread_func_loop W state env left i status thr p sl).performs = p + k + 1 ∧
      (thread_func_loop W state env left i status thr p sl).sleeps
        = sl ++ List.replicate (if i = 0 then k else k + 1) state.retry_pause := by
  intro k
  induction k with
  | zero =>
    intro left i status thr p sl hleft hs hl _ hsucc
    obtain ⟨left, rfl⟩ : ∃ l, left = l + 1 := ⟨left - 1, by omega⟩
    obtain ⟨hcurl, hseek, hperf, hhttp, hbytes⟩ := hsucc
    simp only [Nat.add_zero] at hcurl hseek hperf hhttp hbytes
    have hrl := (run_callbacks_same (env.attempts i).chunks { thr with bytes_written := 0 }).2.2.1
    simp only at hrl
    have hb := attempt_bytes_congr thr thr0 (env.attempts i) hl
    have hbw : (run_callbacks { thr with bytes_written := 0 } (env.attempts i).chunks).bytes_written
        = (run_callbacks { thr with bytes_written := 0 } (env.attempts i).chunks).range_len := by
      rw [hb, hbytes, ← hrl, hl]
    rw [← hs] at hseek
    unfold thread_func_loop
    simp only [hcurl, hseek, hperf, hhttp, hbw, Bool.not_true, Bool.false_eq_true, if_false,
      ne_eq, not_true_eq_false]
    by_cases hi : i = 0
    · simp [hi]
    · simp [hi, hpause]
  | succ k ih =>
    intro left i status thr p sl hleft hs hl hfail hsucc
    obtain ⟨left, rfl⟩ : ∃ l, left = l + 1 := ⟨left - 1, by omega⟩
    obtain ⟨hcurl, hseek, hkind⟩ := hfail 0 (by omega)
    simp only [Nat.add_zero] at hcurl hseek hkind
    have hsame := run_callbacks_same (env.attempts i).chunks { thr with bytes_written := 0 }
    have hrs := hsame.2.1
    have hrl := hsame.2.2.1
    simp only at hrs hrl
    have hb := attempt_bytes_congr thr thr0 (env.attempts i) hl
    have hnext := fun (st : Int) (sl2 : List Nat) =>
      ih left (i + 1) st (run_callbacks { thr with bytes_written := 0 } (env.attempts i).chunks)
        (p + 1) sl2 (by omega) (hrs.symm.trans hs) (hrl.symm.trans hl)
        (fun j hj => by
          have := hfail (j + 1) (by omega)
          rwa [show i + (j + 1) = i + 1 + j by omega] at this)
        (by rwa [show i + (k + 1) = i + 1 + k by omega] at hsucc)
    have hsl : (if i ≠ 0 ∧ state.retry_pause ≠ 0 then sl ++ [state.retry_pause] else sl)
          ++ List.replicate (k + 1) state.retry_pause
        = sl ++ List.replicate (if i = 0 then k + 1 else k + 1 + 1) state.retry_pause := by
      by_cases hi : i = 0
      · simp [hi]
      · simp only [hi, hpause, ne_eq, not_false_eq_true, and_self, if_true, if_false,
          List.append_assoc, List.singleton_append]
        rfl
    simp only [Nat.add_eq_zero, one_ne_zero, and_false, if_false] at hnext
    rw [← hs] at hseek
    unfold thread_func_loop
    simp only [hcurl, hseek, Bool.not_true, Bool.false_eq_true, if_false, ne_eq,
      not_true_eq_false]
    rcases hkind with ⟨h1, h2⟩ | ⟨h1, h2⟩ | ⟨h1, h2, h3⟩
    · simp only [h1, h2, not_false_eq_true, if_true, if_false]
      have := hnext (env.attempts i).perform_status
        (if ¬ i = 0 ∧ ¬ state.retry_pause = 0 then sl ++ [state.retry_pause] else sl)
      rw [hsl] at this
      exact ⟨this.1, by omega, this.2.2⟩
    · simp only [h1, h2, not_false_eq_true, if_true, if_false, not_true_eq_false]
      have := hnext PC_ERR_HTTP
        (if ¬ i = 0 ∧ ¬ state.retry_pause = 0 then sl ++ [state.retry_pause] else sl)
      rw [hsl] at this
      exact ⟨this.1, by omega, this.2.2⟩
    · have hne : ¬ ((run_callbacks { thr with bytes_written := 0 }
          (env.attempts i).chunks).bytes_written
          = (run_callbacks { thr with bytes_written := 0 } (env.attempts i).chunks).range_len) := by
        rw [hb, ← hrl, hl]; exact h3
      simp only [h1, h2, hne, not_false_eq_true, if_true, if_false, not_true_eq_false]
      have := hnext PC_ERR_BYTES_WRITTEN
        (if ¬ i = 0 ∧ ¬ state.retry_pause = 0 then sl ++ [state.retry_pause] else sl)
      rw [hsl] at this
      exact ⟨this.1, by omega, this.2.2⟩

/-- C9, as amended (retry accounting): for every `k ≥ 0` and every
`n_retries > k`, with `retry_pause > 0`, a worker on a planned segment (status
0) that opens the temporary file, whose first `k` attempts each fail with a
retryable failure, whose `(k+1)`-th attempt returns 206 with `bytes_written`
equal to `range_len`, and whose final `close` succeeds, performs exactly `k + 1`
transfer attempts and exactly `k` sleeps of `retry_pause` seconds, and ends
with success status, both in its local `status` and in its segment. -/
theorem thread_func_retry_accounting (W : Int) (state : paracurl_state)
    (thr : paracurl_thread) (env : worker_env) (k : Nat)
    (hplanned : thr.status = 0) (hopen : env.open_fd ≠ -1)
    (hk : k < state.n_retries) (hpause : 0 < state.retry_pause)
    (hfail : ∀ j, j < k → retryable_failure W thr (env.attempts j))
    (hsucc : successful_attempt thr (env.attempts k))
    (hclose : env.close_rc = 0) :
    (thread_func W state thr env).performs = k + 1 ∧
    (thread_func W state thr env).sleeps = List.replicate k state.retry_pause ∧
    (thread_func W state thr env).status = 0 ∧
    (thread_func W state thr env).thr.status = 0 := by
  have hloop := thread_func_loop_retry W state env thr (by omega) k state.n_retries 0 0
    { thr with fd := env.open_fd } 0 [] hk rfl rfl
    (fun j hj => by simpa using hfail j hj) (by simpa using hsucc)
  have hst := (thread_func_loop_same W state env state.n_retries 0 0
    { thr with fd := env.open_fd } 0 []).2.2.2.2
  simp only at hst
  simp only [if_true, List.nil_append, Nat.zero_add] at hloop
  unfold thread_func
  simp only [hopen, if_false]
  generalize thread_func_loop W state env state.n_retries 0 0
    { thr with fd := env.open_fd } 0 [] = r at hloop hst
  obtain ⟨h1, h2, h3⟩ := hloop
  refine ⟨h2, h3, h1, ?_⟩
  unfold thread_func_done
  simp only [hclose, h1, ne_eq, not_true_eq_false, if_false, ite_self]
  rw [← hst]; exact hplanned

/-- C9 as amended, at its stated input: two failures, then success, take
exactly 3 transfer attempts and 2 sleeps of `retry_pause = 5` seconds. -/
theorem thread_func_retry_accounting_witness :
    (thread_func 23 state_default thr_100 (worker_env_of 2 100 0)).performs = 3 ∧
    (thread_func 23 state_default thr_100 (worker_env_of 2 100 0)).sleeps = [5, 5] ∧
    (thread_func 23 state_default thr_100 (worker_env_of 2 100 0)).status = 0 ∧
    (thread_func 23 state_default thr_100 (worker_env_of 2 100 0)).thr.status = 0 :=
  thread_func_retry_accounting 23 state_default thr_100 (worker_env_of 2 100 0) 2
    rfl (by decide) (by decide) (by decide)
    (by
      intro j hj
      interval_cases j <;> (unfold retryable_failure; decide))
    (by unfold successful_attempt; decide)
    rfl

/-- C9 as stated fails when the final `close` fails: a worker whose first
attempt returns 206 with all 100 bytes written (`k = 0`, `n_retries = 5`,
`retry_pause = 5`) makes one attempt and no sleep, but leaves `PC_ERR_CLOSE`,
not success, in its segment. -/
theorem thread_func_retry_accounting_counterexample :
    successful_attempt thr_100 ((worker_env_of 0 100 (-1)).attempts 0) ∧
    (thread_func 23 state_default thr_100 (worker_env_of 0 100 (-1))).performs = 1 ∧
    (thread_func 23 state_default thr_100 (worker_env_of 0 100 (-1))).sleeps = [] ∧
    (thread_func 23 state_default thr_100 (worker_env_of 0 100 (-1))).thr.status
      = PC_ERR_CLOSE ∧
    (thread_func 23 state_default thr_100 (worker_env_of 0 100 (-1))).thr.status ≠ 0 := by
  refine ⟨by unfold successful_attempt; decide, by decide, by decide, by decide, by decide⟩

/-! ## Coordinator: fan-in and commit -/

/-- The join loop leaves `status` at 0 exactly when it was 0 and every segment
it visits has status 0 and a successful join. -/
theorem wait_for_threads_eq_zero (state : paracurl_state) (join_rc : Nat → Int) :
    ∀ (left i : Nat) (status : Int),
      wait_for_threads state join_rc left i status = 0 ↔
        (status = 0 ∧ ∀ j, i ≤ j → j < i + left →
          (state.threads.getD j calloc_thread).status = 0 ∧ join_rc j = 0) := by
  intro left
  induction left with
  | zero =>
    intro i status
    simp only [wait_for_threads, Nat.add_zero]
    constructor
    · intro h; exact ⟨h, fun j h1 h2 => absurd h2 (by omega)⟩
    · intro h; exact h.1
  | succ left ih =>
    intro i status
    rw [wait_for_threads, ih]
    constructor
    · rintro ⟨hst, hall⟩
      by_cases hgood : (state.threads.getD i calloc_thread).status = 0 ∧ join_rc i = 0
      · have hc : ¬ ((state.threads.getD i calloc_thread).status ≠ PC_ERR_PTHREAD_CREATE
            ∧ join_rc i ≠ 0) := fun h => h.2 hgood.2
        rw [if_neg hc, if_neg (by simpa using hgood.1)] at hst
        refine ⟨hst, fun j h1 h2 => ?_⟩
        by_cases hj : j = i
        · rw [hj]; exact hgood
        · exact hall j (by omega) (by omega)
      · exfalso
        by_cases hc : (state.threads.getD i calloc_thread).status ≠ PC_ERR_PTHREAD_CREATE
            ∧ join_rc i ≠ 0
        · rw [if_pos hc] at hst
          simp [PC_ERR_PTHREAD_JOIN] at hst
        · rw [if_neg hc] at hst
          by_cases hz : (state.threads.getD i calloc_thread).status = 0
          · apply hgood
            refine ⟨hz, ?_⟩
            by_contra hj
            exact hc ⟨by rw [hz]; simp [PC_ERR_PTHREAD_CREATE], hj⟩
          · rw [if_pos hz] at hst
            exact hz hst
    · rintro ⟨hst, hall⟩
      have hgood := hall i (le_refl i) (by omega)
      have hc : ¬ ((state.threads.getD i calloc_thread).status ≠ PC_ERR_PTHREAD_CREATE
          ∧ join_rc i ≠ 0) := fun h => h.2 hgood.2
      rw [if_neg hc, if_neg (by simpa using hgood.1)]
      exact ⟨hst, fun j h1 h2 => hall j (by omega) (by omega)⟩

/-- Fan-in and commit on an arbitrary vector of thread records: `rename` is
called exactly when every record has status 0 and every join returns 0;
otherwise, or when `rename` fails, the call fails and unlinks the temporary
path. -/
theorem paracurl_download_commit_statuses (state : paracurl_state)
    (join_rc : Nat → Int) (rename_rc : Int) (htmp : state.outpath_tmp ≠ none) :
    ((∃ rc, fs_call.rename rc ∈ (paracurl_download_commit state join_rc rename_rc).calls) ↔
      (∀ i, i < state.n_threads →
        (state.threads.getD i calloc_thread).status = 0 ∧ join_rc i = 0)) ∧
    (¬ ((∀ i, i < state.n_threads →
          (state.threads.getD i calloc_thread).status = 0 ∧ join_rc i = 0) ∧ rename_rc = 0) →
      fs_call.rename 0 ∉ (paracurl_download_commit state join_rc rename_rc).calls ∧
      (paracurl_download_commit state join_rc rename_rc).status ≠ 0 ∧
      (paracurl_download_commit state join_rc rename_rc).ret = none ∧
      fs_call.unlink ∈ (paracurl_download_commit state join_rc rename_rc).calls) ∧
    (((∀ i, i < state.n_threads →
          (state.threads.getD i calloc_thread).status = 0 ∧ join_rc i = 0) ∧ rename_rc = 0) →
      (paracurl_download_commit state join_rc rename_rc).status = 0 ∧
      (paracurl_download_commit state join_rc rename_rc).calls = [fs_call.rename 0]) := by
  have hz := wait_for_threads_eq_zero state join_rc state.n_threads 0 0
  simp only [true_and, Nat.zero_le, Nat.zero_add, forall_const] at hz
  generalize (∀ i, i < state.n_threads →
      (state.threads.getD i calloc_thread).status = 0 ∧ join_rc i = 0) = all_ok at hz ⊢
  by_cases hall : all_ok
  · have hw : wait_for_threads state join_rc state.n_threads 0 0 = 0 := hz.2 hall
    by_cases hr : rename_rc = 0
    · simp [paracurl_download_commit, paracurl_download_done, hw, hr, hall, htmp]
    · have hr2 : ¬ (0 = rename_rc) := fun h => hr h.symm
      simp [paracurl_download_commit, paracurl_download_done, hw, hr, hr2, hall, htmp,
        PC_ERR_RENAME]
  · have hw : ¬ (wait_for_threads state join_rc state.n_threads 0 0 = 0) :=
      fun h => hall (hz.1 h)
    simp [paracurl_download_commit, paracurl_download_done, hw, hall, htmp]

/-- With every join succeeding, the join loop keeps `status` when every segment
it visits has status 0. -/
theorem wait_for_threads_all_zero (state : paracurl_state) (join_rc : Nat → Int) :
    ∀ (left i : Nat) (status : Int),
      (∀ j, i ≤ j → j < i + left →
        (state.threads.getD j calloc_thread).status = 0 ∧ join_rc j = 0) →
      wait_for_threads state join_rc left i status = status := by
  intro left
  induction left with
  | zero => intro i status _; rfl
  | succ left ih =>
    intro i status hall
    have hgood := hall i (le_refl i) (by omega)
    have hc : ¬ ((state.threads.getD i calloc_thread).status ≠ PC_ERR_PTHREAD_CREATE
        ∧ join_rc i ≠ 0) := fun h => h.2 hgood.2
    rw [wait_for_threads, if_neg hc, if_neg (by simpa using hgood.1)]
    exact ih (i + 1) status (fun j h1 h2 => hall j (by omega) (by omega))

/-- With every join succeeding, the join loop ends with the status of the
highest-index segment whose status is not 0. -/
theorem wait_for_threads_last (state : paracurl_state) (join_rc : Nat → Int) (m : Nat)
    (hm : (state.threads.getD m calloc_thread).status ≠ 0) :
    ∀ (left i : Nat) (status : Int), i ≤ m → m < i + left →
      (∀ j, i ≤ j → j < i + left → join_rc j = 0) →
      (∀ j, m < j → j < i + left → (state.threads.getD j calloc_thread).status = 0) →
      wait_for_threads state join_rc left i status
        = (state.threads.getD m calloc_thread).status := by
  intro left
  induction left with
  | zero => intro i status h1 h2; omega
  | succ left ih =>
    intro i status h1 h2 hjoin hzero
    have hc : ¬ ((state.threads.getD i calloc_thread).status ≠ PC_ERR_PTHREAD_CREATE
        ∧ join_rc i ≠ 0) := fun h => h.2 (hjoin i (le_refl i) (by omega))
    rw [wait_for_threads, if_neg hc]
    by_cases him : i = m
    · subst him
      rw [if_pos hm]
      exact wait_for_threads_all_zero state join_rc left (i + 1) _
        (fun j h3 h4 => ⟨hzero j (by omega) (by omega), hjoin j (by omega) (by omega)⟩)
    · exact ih (i + 1) _ (by omega) (by omega)
        (fun j h3 h4 => hjoin j (by omega) (by omega))
        (fun j h3 h4 => hzero j h3 (by omega))

/-- C3, as amended (error aggregation): for every vector of per-segment statuses
in which at least one is non-zero, all joins succeeding, the error code the
invocation reports is the status of the highest-index segment whose status is
non-success, i.e. the last non-success status met when the segments are scanned
in index order. -/
theorem paracurl_download_commit_last_failure (state : paracurl_state)
    (join_rc : Nat → Int) (rename_rc : Int)
    (hjoin : ∀ i, i < state.n_threads → join_rc i = 0)
    (hfail : ∃ i, i < state.n_threads ∧ (state.threads.getD i calloc_thread).status ≠ 0) :
    ∃ m, m < state.n_threads ∧ (state.threads.getD m calloc_thread).status ≠ 0 ∧
      (∀ j, m < j → j < state.n_threads → (state.threads.getD j calloc_thread).status = 0) ∧
      (paracurl_download_commit state join_rc rename_rc).status
        = (state.threads.getD m calloc_thread).status := by
  obtain ⟨i0, hi0, hne0⟩ := hfail
  let P : Nat → Prop := fun j => (state.threads.getD j calloc_thread).status ≠ 0
  have hP0 : P i0 := hne0
  have hspec : P (Nat.findGreatest P (state.n_threads - 1)) :=
    Nat.findGreatest_spec (by omega) hP0
  have hle : Nat.findGreatest P (state.n_threads - 1) ≤ state.n_threads - 1 :=
    Nat.findGreatest_le _
  have hgreatest : ∀ j, Nat.findGreatest P (state.n_threads - 1) < j → j < state.n_threads →
      (state.threads.getD j calloc_thread).status = 0 := by
    intro j h1 h2
    by_contra hj
    exact Nat.findGreatest_is_greatest h1 (by omega) hj
  refine ⟨Nat.findGreatest P (state.n_threads - 1), by omega, hspec, hgreatest, ?_⟩
  have hw := wait_for_threads_last state join_rc _ hspec state.n_threads 0 0 (Nat.zero_le _)
    (by omega) (fun j _ h2 => hjoin j (by omega)) (fun j h1 h2 => hgreatest j h1 (by omega))
  have hw0 : ¬ (wait_for_threads state join_rc state.n_threads 0 0 = 0) := by
    rw [hw]; exact hspec
  simp only [paracurl_download_commit, hw0, if_false, paracurl_download_done]
  exact hw

/-- C3 as amended, on segments ending with `PC_ERR_HTTP` and then
`PC_ERR_BYTES_WRITTEN`. -/
theorem paracurl_download_commit_last_failure_witness :
    ∃ m, m < state_two_failures.n_threads ∧
      (state_two_failures.threads.getD m calloc_thread).status ≠ 0 ∧
      (∀ j, m < j → j < state_two_failures.n_threads →
        (state_two_failures.threads.getD j calloc_thread).status = 0) ∧
      (paracurl_download_commit state_two_failures (fun _ => 0) 0).status
        = (state_two_failures.threads.getD m calloc_thread).status :=
  paracurl_download_commit_last_failure state_two_failures (fun _ => 0) 0
    (fun _ _ => rfl) ⟨0, by decide, by decide⟩

/-- C3 as stated fails: with segment 0 ending in `PC_ERR_HTTP` and segment 1 in
`PC_ERR_BYTES_WRITTEN` (all joins succeeding), segment 0 is the lowest-index
segment with a non-success status, yet the invocation reports
`PC_ERR_BYTES_WRITTEN`. -/
theorem paracurl_download_commit_first_failure_counterexample :
    (state_two_failures.threads.getD 0 calloc_thread).status = PC_ERR_HTTP ∧
    (state_two_failures.threads.getD 0 calloc_thread).status ≠ 0 ∧
    (paracurl_download_commit state_two_failures (fun _ => 0) 0).status
      = PC_ERR_BYTES_WRITTEN ∧
    (paracurl_download_commit state_two_failures (fun _ => 0) 0).status
      ≠ (state_two_failures.threads.getD 0 calloc_thread).status := by
  decide

/-! ## Coordinator: arguments and probe -/

/-- C6 (failing input): `max_threads = -1` is stored into the `size_t` field as
`2 ^ 64 - 1`, which the test `max_threads <= 0` of `init_thread_info` lets
through: for a 2,500,000-byte resource planning returns 0 with 3 segments, and
the whole download succeeds instead of failing with `PC_ERR_MAX_THREADS`. -/
theorem init_thread_info_negative_max_threads :
    (paracurl_download_init (args_of (-1) 5)).max_threads = 2 ^ 64 - 1 ∧
    (init_thread_info
      { paracurl_download_init (args_of (-1) 5) with content_length := 2500000 } true).1 = 0 ∧
    (init_thread_info
      { paracurl_download_init (args_of (-1) 5) with content_length := 2500000 }
      true).2.n_threads = 3 ∧
    paracurl_download 23 (args_of (-1) 5) (env_of header_2500000 lens_2500000)
      = { status := 0, ret := some (2500000, none),
          calls := [fs_call.open_tmp 3, fs_call.rename 0] } := by
  refine ⟨by decide, by decide, by decide, by decide⟩

/-- C7 (failing inputs): with `n_retries = 0` the probe loop body never runs,
so the loop ends with status 0 and the content length still 0; the download
then goes on to create the temporary file and to plan, where it stops with
`PC_ERR_ASSERT`. And a probe answered 206 with a `Content-Range` header whose
total reads `-5` ends with status 0 and content length `-5`. -/
theorem paracurl_download_probe_not_positive :
    (paracurl_download_init (args_of 16 0)).n_retries = 0 ∧
    (paracurl_download_probe (env_of header_2500000 lens_2500000).probes
        (paracurl_download_init (args_of 16 0)).n_retries 0 0
        (paracurl_download_init (args_of 16 0)) []).1 = 0 ∧
    (paracurl_download_probe (env_of header_2500000 lens_2500000).probes
        (paracurl_download_init (args_of 16 0)).n_retries 0 0
        (paracurl_download_init (args_of 16 0)) []).2.1.content_length = 0 ∧
    paracurl_download 23 (args_of 16 0) (env_of header_2500000 lens_2500000)
      = { status := PC_ERR_ASSERT, ret := none,
          calls := [fs_call.open_tmp 3, fs_call.unlink] } ∧
    (paracurl_download_probe (fun _ => probe_of header_negative)
        (paracurl_download_init (args_of 16 5)).n_retries 0 0
        (paracurl_download_init (args_of 16 5)) []).1 = 0 ∧
    (paracurl_download_probe (fun _ => probe_of header_negative)
        (paracurl_download_init (args_of 16 5)).n_retries 0 0
        (paracurl_download_init (args_of 16 5)) []).2.1.content_length = -5 := by
  refine ⟨by decide, by decide, by decide, by decide, by decide, by decide⟩

/-- What the probe loop does guarantee: when at least one attempt is made (or
the status on entry is an error), a final status 0 comes with a content length
different from 0. -/
theorem paracurl_download_probe_nonzero (probes : Nat → probe_attempt) :
    ∀ (left i : Nat) (status : Int) (state : paracurl_state) (sleeps : List Nat),
      (status ≠ 0 ∨ 1 ≤ left) →
      (paracurl_download_probe probes left i status state sleeps).1 = 0 →
      (paracurl_download_probe probes left i status state sleeps).2.1.content_length ≠ 0 := by
  intro left
  induction left with
  | zero =>
    intro i status state sleeps h h0
    rcases h with h | h
    · exact absurd h0 h
    · omega
  | succ left ih =>
    intro i status state sleeps _
    unfold paracurl_download_probe
    simp only
    split
    · intro h0; simp [PC_ERR_ALLOC] at h0
    · split
      · rename_i hs
        exact ih _ _ _ _ (Or.inl hs)
      · split
        · exact ih _ _ _ _ (Or.inl (by simp [PC_ERR_HTTP]))
        · split
          · rename_i hc
            intro _; exact hc
          · exact ih _ _ _ _ (Or.inl (by simp [PC_ERR_CONTENT_LEN]))

/-- The planner rejects `max_threads = 0`. -/
theorem init_thread_info_zero_max_threads (st : paracurl_state) (calloc_ok : Bool)
    (h : st.max_threads = 0) :
    init_thread_info st calloc_ok = (PC_ERR_MAX_THREADS, st) := by
  simp [init_thread_info, h]

theorem init_thread_info_loop_rc (cl seg : Int) (n : Nat) :
    ∀ (left i : Nat) (x : Int) (threads : List paracurl_thread),
      (init_thread_info_loop cl seg n left i x threads).1 = 0 ∨
      (init_thread_info_loop cl seg n left i x threads).1 = PC_ERR_ASSERT := by
  intro left
  induction left with
  | zero => intro i x threads; exact Or.inl rfl
  | succ left ih =>
    intro i x threads
    rw [init_thread_info_loop]
    by_cases h : (if i = (n + SIZE_MOD - 1) % SIZE_MOD then cl - x else seg) = 0
    · simp [h]
    · simp only [h, if_false]
      exact ih _ _ _

/-- The planner returns `PC_ERR_MAX_THREADS` for no non-zero value of the
max_threads field, and every negative `int` is stored as a non-zero value. -/
theorem init_thread_info_negative_accepted (st : paracurl_state) (calloc_ok : Bool) (m : Int)
    (hneg : m < 0) (hint : -(2 ^ 31) ≤ m) (hst : st.max_threads = to_size_t m) :
    (init_thread_info st calloc_ok).1 ≠ PC_ERR_MAX_THREADS := by
  have hnz : ¬ (st.max_threads ≤ 0) := by
    rw [hst]
    unfold to_size_t SIZE_MOD
    omega
  unfold init_thread_info
  simp only [if_neg hnz]
  cases calloc_ok with
  | false => simp [PC_ERR_ALLOC, PC_ERR_MAX_THREADS]
  | true =>
    simp only [Bool.not_true, Bool.false_eq_true, if_false]
    generalize to_off_t (to_size_t st.content_length / st.max_threads) = seg0
    generalize (if seg0 ≥ minseg then seg0 else minseg) = seg
    generalize (if seg0 ≥ minseg then st.max_threads
      else to_size_t (Int.tdiv st.content_length minseg + 1)) = n
    have hrc := init_thread_info_loop_rc st.content_length seg n n 0 0
      (List.replicate n calloc_thread)
    generalize init_thread_info_loop st.content_length seg n n 0 0
      (List.replicate n calloc_thread) = r at hrc ⊢
    obtain ⟨rc, x, thr⟩ := r
    simp only at hrc ⊢
    rcases hrc with h | h
    · subst h
      simp only [ne_eq, not_true_eq_false, if_false]
      split <;> simp [PC_ERR_ASSERT, PC_ERR_MAX_THREADS]
    · subst h
      simp [PC_ERR_ASSERT, PC_ERR_MAX_THREADS]

/-! ## Coordinator: fan-out -/

theorem getD_set_self {α : Type} (l : List α) (i : Nat) (a d : α) (h : i < l.length) :
    (l.set i a).getD i d = a := by
  rw [List.getD_eq_getElem?_getD, List.getElem?_set]
  simp [h]

theorem getD_set_ne {α : Type} (l : List α) (i j : Nat) (a d : α) (h : i ≠ j) :
    (l.set i a).getD j d = l.getD j d := by
  rw [List.getD_eq_getElem?_getD, List.getD_eq_getElem?_getD, List.getElem?_set_ne h]

theorem fire_up_threads_length (W : Int) (state : paracurl_state) (create_rc : Nat → Int)
    (workers : Nat → worker_env) :
    ∀ (left i : Nat) (threads : List paracurl_thread),
      (fire_up_threads W state create_rc workers left i threads).length = threads.length := by
  intro left
  induction left with
  | zero => intro i threads; rfl
  | succ left ih =>
    intro i threads
    rw [fire_up_threads, ih, List.length_set]

/-- The fan-out loop rewrites exactly the records it visits: the record of a
thread that could not be created gets `PC_ERR_PTHREAD_CREATE`, the record of a
created thread is the one `thread_func` leaves. -/
theorem fire_up_threads_getD (W : Int) (state : paracurl_state) (create_rc : Nat → Int)
    (workers : Nat → worker_env) :
    ∀ (left i : Nat) (threads : List paracurl_thread), i + left ≤ threads.length →
      ∀ j, (fire_up_threads W state create_rc workers left i threads).getD j calloc_thread =
        if i ≤ j ∧ j < i + left then
          (if create_rc j ≠ 0 then
            { threads.getD j calloc_thread with status := PC_ERR_PTHREAD_CREATE }
           else (thread_func W state (threads.getD j calloc_thread) (workers j)).thr)
        else threads.getD j calloc_thread := by
  intro left
  induction left with
  | zero =>
    intro i threads _ j
    have : ¬ (i ≤ j ∧ j < i + 0) := by omega
    rw [if_neg this]; rfl
  | succ left ih =>
    intro i threads hlen j
    rw [fire_up_threads, ih (i + 1) _ (by rw [List.length_set]; omega) j]
    by_cases hji : j = i
    · subst hji
      have h1 : ¬ (j + 1 ≤ j ∧ j < j + 1 + left) := by omega
      have h2 : j ≤ j ∧ j < j + (left + 1) := by omega
      rw [if_neg h1, if_pos h2, getD_set_self _ _ _ _ (by omega)]
    · have hne : i ≠ j := fun h => hji h.symm
      rw [getD_set_ne _ _ _ _ _ hne]
      by_cases hin : i + 1 ≤ j ∧ j < i + 1 + left
      · have h2 : i ≤ j ∧ j < i + (left + 1) := by omega
        rw [if_pos hin, if_pos h2]
      · have h2 : ¬ (i ≤ j ∧ j < i + (left + 1)) := by omega
        rw [if_neg hin, if_neg h2]

theorem init_thread_info_loop_length (cl seg : Int) (n : Nat) :
    ∀ (left i : Nat) (x : Int) (threads : List paracurl_thread),
      (init_thread_info_loop cl seg n left i x threads).2.2.length = threads.length := by
  intro left
  induction left with
  | zero => intro i x threads; rfl
  | succ left ih =>
    intro i x threads
    rw [init_thread_info_loop]
    by_cases h : (if i = (n + SIZE_MOD - 1) % SIZE_MOD then cl - x else seg) = 0
    · simp [h]
    · simp only [h, if_false]
      rw [ih, List.length_set]

/-- Planning leaves the temporary path name alone, and a plan it returns 0 for
has as many thread records as `n_threads` says. -/
theorem init_thread_info_frame (st : paracurl_state) (calloc_ok : Bool) :
    (init_thread_info st calloc_ok).2.outpath_tmp = st.outpath_tmp ∧
    ((init_thread_info st calloc_ok).1 = 0 →
      (init_thread_info st calloc_ok).2.threads.length
        = (init_thread_info st calloc_ok).2.n_threads) := by
  unfold init_thread_info
  by_cases hmx : st.max_threads ≤ 0
  · simp [hmx, PC_ERR_MAX_THREADS]
  · simp only [if_neg hmx]
    cases calloc_ok with
    | false => simp [PC_ERR_ALLOC]
    | true =>
      simp only [Bool.not_true, Bool.false_eq_true, if_false]
      generalize to_off_t (to_size_t st.content_length / st.max_threads) = seg0
      generalize (if seg0 ≥ minseg then seg0 else minseg) = seg
      generalize (if seg0 ≥ minseg then st.max_threads
        else to_size_t (Int.tdiv st.content_length minseg + 1)) = n
      have hlen := init_thread_info_loop_length st.content_length seg n n 0 0
        (List.replicate n calloc_thread)
      generalize init_thread_info_loop st.content_length seg n n 0 0
        (List.replicate n calloc_thread) = r at hlen ⊢
      obtain ⟨rc, x, thr⟩ := r
      simp only [List.length_replicate] at hlen
      simp only
      by_cases hrc : rc = 0
      · subst hrc
        simp only [ne_eq, not_true_eq_false, if_false]
        by_cases hx : x = st.content_length
        · simp [hx, hlen]
        · simp [hx, PC_ERR_ASSERT]
      · simp [hrc]

/-- A run of `paracurl_download` whose probe, skip check, temporary file and
planning all succeed continues with the fan-out, the fan-in and the commit. -/
theorem paracurl_download_reaches_threads (W : Int) (args : download_args) (env : download_env)
    (st1 st2 : paracurl_state) (sl : List Nat)
    (halloc : env.state_alloc_ok = true) (hstr : env.strings_alloc_ok = true)
    (hprobe : paracurl_download_probe env.probes (paracurl_download_init args).n_retries 0 0
      (paracurl_download_init args) [] = (0, st1, sl))
    (hetag : ¬ (st1.etag ≠ none ∧ st1.url_etag ≠ none ∧ st1.etag = st1.url_etag))
    (hopen : env.open_fd ≠ -1) (hlseek : env.lseek st1.content_length = st1.content_length)
    (hclose : env.close_rc = 0)
    (hplan : init_thread_info { st1 with outpath_tmp := some (st1.outpath ++ ".tmp") }
      env.threads_alloc_ok = (0, st2)) :
    paracurl_download W args env =
      { paracurl_download_commit
          { st2 with threads := (fire_up_threads W st2 env.create_rc env.workers
              st2.n_threads 0 st2.threads) } env.join_rc env.rename_rc with
        calls := [fs_call.open_tmp env.open_fd] ++
          (paracurl_download_commit
            { st2 with threads := (fire_up_threads W st2 env.create_rc env.workers
                st2.n_threads 0 st2.threads) } env.join_rc env.rename_rc).calls } := by
  unfold paracurl_download
  simp only [halloc, hstr, Bool.not_true, Bool.false_eq_true, if_false, hprobe]
  simp only [ne_eq, not_true_eq_false, if_false]
  rw [if_neg (by simpa using hetag)]
  simp only [hopen, hlseek, hclose, if_false, not_true_eq_false, hplan]

/-- C2 (all-or-nothing commit): in every run of `paracurl_download` that reaches
the fan-out (probe, skip check, temporary file and planning succeeded, `st2`
being the planned state), for every combination of `pthread_create` results,
worker outcomes and `pthread_join` results: a segment whose thread could not be
created ends with status `PC_ERR_PTHREAD_CREATE`, a segment whose thread was
created ends with the status `thread_func` leaves; `rename` of the temporary
path to the output path is attempted if and only if every segment's terminal
status is 0 and every join succeeded, that is, if and only if every thread was
created, every worker left status 0 and every join succeeded; when that fails,
or the `rename` itself fails, no successful `rename` reaches the output path,
the call ends with a non-zero error code and no return value, and the temporary
path is unlinked; otherwise the call returns status 0 after one successful
`rename`. -/
theorem paracurl_download_all_or_nothing (W : Int) (args : download_args) (env : download_env)
    (st1 st2 : paracurl_state) (sl : List Nat)
    (halloc : env.state_alloc_ok = true) (hstr : env.strings_alloc_ok = true)
    (hprobe : paracurl_download_probe env.probes (paracurl_download_init args).n_retries 0 0
      (paracurl_download_init args) [] = (0, st1, sl))
    (hetag : ¬ (st1.etag ≠ none ∧ st1.url_etag ≠ none ∧ st1.etag = st1.url_etag))
    (hopen : env.open_fd ≠ -1) (hlseek : env.lseek st1.content_length = st1.content_length)
    (hclose : env.close_rc = 0)
    (hplan : init_thread_info { st1 with outpath_tmp := some (st1.outpath ++ ".tmp") }
      env.threads_alloc_ok = (0, st2)) :
    (∀ i, i < st2.n_threads → env.create_rc i ≠ 0 →
      ((fire_up_threads W st2 env.create_rc env.workers st2.n_threads 0 st2.threads).getD i
        calloc_thread).status = PC_ERR_PTHREAD_CREATE) ∧
    (∀ i, i < st2.n_threads → env.create_rc i = 0 →
      ((fire_up_threads W st2 env.create_rc env.workers st2.n_threads 0 st2.threads).getD i
        calloc_thread).status
        = (thread_func W st2 (st2.threads.getD i calloc_thread) (env.workers i)).thr.status) ∧
    ((∃ rc, fs_call.rename rc ∈ (paracurl_download W args env).calls) ↔
      (∀ i, i < st2.n_threads →
        ((fire_up_threads W st2 env.create_rc env.workers st2.n_threads 0 st2.threads).getD i
          calloc_thread).status = 0 ∧ env.join_rc i = 0)) ∧
    ((∃ rc, fs_call.rename rc ∈ (paracurl_download W args env).calls) ↔
      (∀ i, i < st2.n_threads → env.create_rc i = 0 ∧
        (thread_func W st2 (st2.threads.getD i calloc_thread) (env.workers i)).thr.status = 0 ∧
        env.join_rc i = 0)) ∧
    (¬ ((∀ i, i < st2.n_threads →
          ((fire_up_threads W st2 env.create_rc env.workers st2.n_threads 0 st2.threads).getD i
            calloc_thread).status = 0 ∧ env.join_rc i = 0) ∧ env.rename_rc = 0) →
      fs_call.rename 0 ∉ (paracurl_download W args env).calls ∧
      (paracurl_download W args env).status ≠ 0 ∧
      (paracurl_download W args env).ret = none ∧
      fs_call.unlink ∈ (paracurl_download W args env).calls) ∧
    (((∀ i, i < st2.n_threads →
          ((fire_up_threads W st2 env.create_rc env.workers st2.n_threads 0 st2.threads).getD i
            calloc_thread).status = 0 ∧ env.join_rc i = 0) ∧ env.rename_rc = 0) →
      (paracurl_download W args env).status = 0 ∧
      (paracurl_download W args env).calls
        = [fs_call.open_tmp env.open_fd, fs_call.rename 0]) := by
  have hframe := init_thread_info_frame { st1 with outpath_tmp := some (st1.outpath ++ ".tmp") }
    env.threads_alloc_ok
  rw [hplan] at hframe
  have htmp : st2.outpath_tmp ≠ none := by
    have := hframe.1
    simp only at this
    rw [this]; simp
  have hlen : st2.threads.length = st2.n_threads := hframe.2 rfl
  have hget := fun i => fire_up_threads_getD W st2 env.create_rc env.workers st2.n_threads 0
    st2.threads (by omega) i
  have hcreate : ∀ i, i < st2.n_threads → env.create_rc i ≠ 0 →
      ((fire_up_threads W st2 env.create_rc env.workers st2.n_threads 0 st2.threads).getD i
        calloc_thread).status = PC_ERR_PTHREAD_CREATE := by
    intro i hi hc
    rw [hget i, if_pos (by omega), if_pos hc]
  have hrun : ∀ i, i < st2.n_threads → env.create_rc i = 0 →
      ((fire_up_threads W st2 env.create_rc env.workers st2.n_threads 0 st2.threads).getD i
        calloc_thread).status
        = (thread_func W st2 (st2.threads.getD i calloc_thread) (env.workers i)).thr.status := by
    intro i hi hc
    rw [hget i, if_pos (by omega), if_neg (by simpa using hc)]
  have hequiv : (∀ i, i < st2.n_threads →
        ((fire_up_threads W st2 env.create_rc env.workers st2.n_threads 0 st2.threads).getD i
          calloc_thread).status = 0 ∧ env.join_rc i = 0) ↔
      (∀ i, i < st2.n_threads → env.create_rc i = 0 ∧
        (thread_func W st2 (st2.threads.getD i calloc_thread) (env.workers i)).thr.status = 0 ∧
        env.join_rc i = 0) := by
    constructor
    · intro h i hi
      have hc : env.create_rc i = 0 := by
        by_contra hc
        have := (h i hi).1
        rw [hcreate i hi hc] at this
        simp [PC_ERR_PTHREAD_CREATE] at this
      exact ⟨hc, by rw [← hrun i hi hc]; exact (h i hi).1, (h i hi).2⟩
    · intro h i hi
      exact ⟨by rw [hrun i hi (h i hi).1]; exact (h i hi).2.1, (h i hi).2.2⟩
  have hcommit := paracurl_download_commit_statuses
    { st2 with threads := (fire_up_threads W st2 env.create_rc env.workers
        st2.n_threads 0 st2.threads) } env.join_rc env.rename_rc htmp
  simp only at hcommit
  rw [paracurl_download_reaches_threads W args env st1 st2 sl halloc hstr hprobe hetag hopen
    hlseek hclose hplan]
  simp only [List.singleton_append, List.mem_cons, reduceCtorEq, false_or]
  refine ⟨hcreate, hrun, hcommit.1, hcommit.1.trans hequiv, ?_, ?_⟩
  · intro h
    obtain ⟨h1, h2, h3, h4⟩ := hcommit.2.1 h
    exact ⟨h1, h2, h3, h4⟩
  · intro h
    obtain ⟨h1, h2⟩ := hcommit.2.2 h
    exact ⟨h1, by rw [h2]⟩

/-- C2 on a 2,500,000-byte download in which the thread of segment 1 cannot be
created: nothing is renamed, the call fails and the temporary path is
unlinked. -/
theorem paracurl_download_all_or_nothing_witness :
    (env_create_failure.create_rc 1 ≠ 0 ∧ 1 < state_planned.n_threads) ∧
    fs_call.rename 0 ∉ (paracurl_download 23 (args_of 16 5) env_create_failure).calls ∧
    (paracurl_download 23 (args_of 16 5) env_create_failure).status ≠ 0 ∧
    (paracurl_download 23 (args_of 16 5) env_create_failure).ret = none ∧
    fs_call.unlink ∈ (paracurl_download 23 (args_of 16 5) env_create_failure).calls :=
  ⟨⟨by decide, by decide⟩,
    (paracurl_download_all_or_nothing 23 (args_of 16 5) env_create_failure state_probed
      state_planned [] rfl rfl (by decide) (by decide) (by decide) rfl rfl
      (by decide)).2.2.2.2.1
      (fun h => absurd (h.1 1 (by decide)).1
        (by
          rw [(paracurl_download_all_or_nothing 23 (args_of 16 5) env_create_failure
            state_probed state_planned [] rfl rfl (by decide) (by decide) (by decide) rfl rfl
            (by decide)).1 1 (by decide) (by decide)]
          decide))⟩

end Paracurl
